import Mathlib

/-!
# Verification of the compareui-server generation/validation core

Shallow embedding of the repository's generation-orchestration engine:

* `Json` — the runtime values produced by `JSON.parse` (numbers restricted to
  integers, which covers every constraint appearing in the config schemas);
* a zod-schema embedding (`SType`, `parseAt`) covering exactly the zod
  combinators used by the repository's validators
  (`z.string`, `.regex(hex)`, `z.number().min/.max/.positive`, `z.boolean`,
  `z.enum`, `z.array(..).min(1)`, `z.union([..])`, `z.object` in strip mode);
* the per-kind config validators (`validateSelectConfig`, ...);
* `extractJSON` / `jsonParse` — the response extractor of
  `src/services/aiService.ts` and the gemini engine module;
* the bounded retry loops (`runRetryLoop`, `generateWithValidation`, the
  per-kind 5-attempt loops) and the component-name routers (`generateConfig`);
* the playground code path (`validateCode`, `checkProviders`,
  `codeControllerLoop`) and the provider registry.
-/

/-- JSON values as produced by `JSON.parse`.  Numbers are modelled as
integers: every numeric constraint in the repository's schemas is an integer
bound, so this restriction does not affect any claim. -/
inductive Json : Type where
  | null : Json
  | bool : Bool → Json
  | num : Int → Json
  | str : String → Json
  | arr : List Json → Json
  | obj : List (String × Json) → Json
deriving Repr

/-- `typeof`-style name used in zod error messages
("Expected object, received string" etc.). -/
def Json.typeName : Json → String
  | .null => "null"
  | .bool _ => "boolean"
  | .num _ => "number"
  | .str _ => "string"
  | .arr _ => "array"
  | .obj _ => "object"

/-- A zod issue: path into the candidate, and a message. -/
abbrev ZIssue := List String × String

/-- The `ValidationResult` interface shared by all config validators. -/
structure ValidationResult where
  success : Bool
  data : Option Json := none
  error : Option String := none
  details : Option (List String) := none
deriving Repr

mutual
/-- The zod schema fragment used by the repository's validators.  Each
constructor is the embedding of one zod combinator as used in the source:
`str` = `z.string()`, `hexColor` = `z.string().regex(/^#[0-9A-Fa-f]{6}$/)`,
`numMin lo` = `z.number().min(lo)`, `numMinMax lo hi` = `.min(lo).max(hi)`,
`numPositive` = `z.number().positive()`, `num` = `z.number()`,
`boolean` = `z.boolean()`,
`enumOf vs` = `z.enum(vs)`, `arrayMin1 e` = `z.array(e).min(1)`,
`union2 a b` = `z.union([a, b])`, `objOf fs` = `z.object({...})` (strip mode,
with per-field optionality flags). -/
inductive SType : Type where
  | str : SType
  | hexColor : SType
  | numMin : Int → SType
  | numMinMax : Int → Int → SType
  | numPositive : SType
  | num : SType
  | boolean : SType
  | enumOf : List String → SType
  | arrayMin1 : SType → SType
  | union2 : SType → SType → SType
  | objOf : SFields → SType
/-- The field list of an object schema: name, optional flag, field schema. -/
inductive SFields : Type where
  | nil : SFields
  | cons : String → Bool → SType → SFields → SFields
end

/-- The declared field names of a field list (schema source order). -/
def SFields.names : SFields → List String
  | .nil => []
  | .cons name _ _ rest => name :: rest.names

/-- Is `s` a `#RRGGBB` color (the regex `/^#[0-9A-Fa-f]{6}$/`)? -/
def isHexColor (s : String) : Bool :=
  match s.toList with
  | '#' :: rest => rest.length == 6 && rest.all (fun c => c.isDigit || ('a' ≤ c && c ≤ 'f') || ('A' ≤ c && c ≤ 'F'))
  | _ => false

/-- zod's rendering of an enum's options: `'a' | 'b' | 'c'`. -/
def enumOptsText (vs : List String) : String :=
  String.intercalate " | " (vs.map (fun v => "'" ++ v ++ "'"))

/-- Combine per-element parse results: all-ok yields the parsed list,
otherwise the per-element issue lists are concatenated in element order. -/
def combineElems : List (Except (List ZIssue) Json) → Except (List ZIssue) (List Json)
  | [] => .ok []
  | .ok y :: rest =>
    match combineElems rest with
    | .ok ys => .ok (y :: ys)
    | .error is => .error is
  | .error is :: rest =>
    match combineElems rest with
    | .ok _ => .error is
    | .error is2 => .error (is ++ is2)

/-- Apply a parser to each element of an array, with zod's index paths. -/
def elemResults (f : List String → Json → Except (List ZIssue) Json)
    (path : List String) : Nat → List Json → List (Except (List ZIssue) Json)
  | _, [] => []
  | i, x :: xs => f (path ++ [toString i]) x :: elemResults f path (i + 1) xs

mutual
/-- Embedding of zod `safeParse` for the schema fragment above: returns the
parsed (stripped) value, or the full ordered issue list.  Mirrors zod v3
semantics: objects in strip mode drop unknown keys, every field of an object
is checked (issues accumulate in schema source order), arrays report a
min-length issue before per-element issues, unions try branches left to
right and report `Invalid input` when all fail. -/
def parseAt : SType → List String → Json → Except (List ZIssue) Json
  | .str, path, v =>
    match v with
    | .str s => .ok (.str s)
    | _ => .error [(path, "Expected string, received " ++ v.typeName)]
  | .hexColor, path, v =>
    match v with
    | .str s => if isHexColor s then .ok (.str s) else .error [(path, "Invalid")]
    | _ => .error [(path, "Expected string, received " ++ v.typeName)]
  | .numMin lo, path, v =>
    match v with
    | .num n =>
      if n < lo then
        .error [(path, "Number must be greater than or equal to " ++ toString lo)]
      else .ok (.num n)
    | _ => .error [(path, "Expected number, received " ++ v.typeName)]
  | .numMinMax lo hi, path, v =>
    match v with
    | .num n =>
      if n < lo then
        .error [(path, "Number must be greater than or equal to " ++ toString lo)]
      else if hi < n then
        .error [(path, "Number must be less than or equal to " ++ toString hi)]
      else .ok (.num n)
    | _ => .error [(path, "Expected number, received " ++ v.typeName)]
  | .numPositive, path, v =>
    match v with
    | .num n =>
      if n ≤ 0 then .error [(path, "Number must be greater than 0")]
      else .ok (.num n)
    | _ => .error [(path, "Expected number, received " ++ v.typeName)]
  | .num, path, v =>
    match v with
    | .num n => .ok (.num n)
    | _ => .error [(path, "Expected number, received " ++ v.typeName)]
  | .boolean, path, v =>
    match v with
    | .bool b => .ok (.bool b)
    | _ => .error [(path, "Expected boolean, received " ++ v.typeName)]
  | .enumOf vs, path, v =>
    match v with
    | .str s =>
      if vs.contains s then .ok (.str s)
      else .error [(path, "Invalid enum value. Expected " ++ enumOptsText vs ++ ", received '" ++ s ++ "'")]
    | _ => .error [(path, "Expected " ++ enumOptsText vs ++ ", received " ++ v.typeName)]
  | .arrayMin1 e, path, v =>
    match v with
    | .arr xs =>
      -- the source's `lenIssues` prefix: the min-length issue precedes any
      -- per-element issues and forces rejection even when elements parse
      match combineElems (elemResults (parseAt e) path 0 xs) with
      | .ok ys =>
        if xs.length < 1 then .error [(path, "Array must contain at least 1 element(s)")]
        else .ok (.arr ys)
      | .error is =>
        if xs.length < 1 then .error ((path, "Array must contain at least 1 element(s)") :: is)
        else .error is
    | _ => .error [(path, "Expected array, received " ++ v.typeName)]
  | .union2 a b, path, v =>
    match parseAt a path v with
    | .ok y => .ok y
    | .error _ =>
      match parseAt b path v with
      | .ok y => .ok y
      | .error _ => .error [(path, "Invalid input")]
  | .objOf fs, path, v =>
    match v with
    | .obj kvs =>
      match parseFields fs path kvs with
      | .ok out => .ok (.obj out)
      | .error is => .error is
    | _ => .error [(path, "Expected object, received " ++ v.typeName)]

/-- Field-wise parsing of an object schema in strip mode: declared fields are
checked in schema order (missing required fields yield `Required`); keys not
declared in the schema are silently dropped from the output.  The per-field
step is the body of `parseField1` below, inlined here so that the mutual
recursion stays structural. -/
def parseFields : SFields → List String → List (String × Json) → Except (List ZIssue) (List (String × Json))
  | .nil, _, _ => .ok []
  | .cons name opt ty rest, path, kvs =>
    match (match kvs.lookup name with
           | none => if opt then Except.ok [] else Except.error [(path ++ [name], "Required")]
           | some v =>
             match parseAt ty (path ++ [name]) v with
             | .ok y => Except.ok [(name, y)]
             | .error is => Except.error is), parseFields rest path kvs with
    | .ok a, .ok b => .ok (a ++ b)
    | .ok _, .error is => .error is
    | .error is, .ok _ => .error is
    | .error is, .error is2 => .error (is ++ is2)
end

/-- One declared field's check (the `cur` computation of the object parse):
look the field up; a missing optional field contributes nothing, a missing
required field is `Required`, a present field is parsed with its schema. -/
def parseField1 (name : String) (opt : Bool) (ty : SType) (path : List String)
    (kvs : List (String × Json)) : Except (List ZIssue) (List (String × Json)) :=
  match kvs.lookup name with
  | none => if opt then .ok [] else .error [(path ++ [name], "Required")]
  | some v =>
    match parseAt ty (path ++ [name]) v with
    | .ok y => .ok [(name, y)]
    | .error is => .error is

/-- `parseFields` on a non-empty field list, written through `parseField1`. -/
theorem parseFields_cons (name : String) (opt : Bool) (ty : SType) (rest : SFields)
    (path : List String) (kvs : List (String × Json)) :
    parseFields (.cons name opt ty rest) path kvs =
      match parseField1 name opt ty path kvs, parseFields rest path kvs with
      | .ok a, .ok b => .ok (a ++ b)
      | .ok _, .error is => .error is
      | .error is, .ok _ => .error is
      | .error is, .error is2 => .error (is ++ is2) := rfl

/-- Element-wise parsing of an array schema, issues indexed by position. -/
def parseElems : SType → List String → Nat → List Json → Except (List ZIssue) (List Json)
  | _, _, _, [] => .ok []
  | e, path, i, x :: xs =>
    match parseAt e (path ++ [toString i]) x, parseElems e path (i + 1) xs with
    | .ok y, .ok ys => .ok (y :: ys)
    | .ok _, .error is => .error is
    | .error is, .ok _ => .error is
    | .error is, .error is2 => .error (is ++ is2)

/-- `parseElems` is the combination of the per-element results. -/
theorem parseElems_eq : ∀ (e : SType) (path : List String) (i : Nat) (xs : List Json),
    parseElems e path i xs = combineElems (elemResults (parseAt e) path i xs)
  | _, _, _, [] => rfl
  | e, path, i, x :: xs => by
    rw [parseElems, elemResults]
    cases hx : parseAt e (path ++ [toString i]) x with
    | ok y =>
      have hr : combineElems (Except.ok y :: elemResults (parseAt e) path (i + 1) xs) =
          match combineElems (elemResults (parseAt e) path (i + 1) xs) with
          | .ok ys => Except.ok (y :: ys)
          | .error is => (Except.error is : Except (List ZIssue) (List Json)) := rfl
      rw [hr, ← parseElems_eq e path (i + 1) xs]
      cases parseElems e path (i + 1) xs <;> rfl
    | error is =>
      have hr : combineElems (Except.error is :: elemResults (parseAt e) path (i + 1) xs) =
          match combineElems (elemResults (parseAt e) path (i + 1) xs) with
          | .ok _ => Except.error is
          | .error is2 => (Except.error (is ++ is2) : Except (List ZIssue) (List Json)) := rfl
      rw [hr, ← parseElems_eq e path (i + 1) xs]
      cases parseElems e path (i + 1) xs <;> rfl

/-- `parseAt` on an array schema, written through `parseElems`. -/
theorem parseAt_arr (e : SType) (path : List String) (xs : List Json) :
    parseAt (.arrayMin1 e) path (.arr xs) =
      match parseElems e path 0 xs with
      | .ok ys =>
        if xs.length < 1 then .error [(path, "Array must contain at least 1 element(s)")]
        else .ok (.arr ys)
      | .error is =>
        if xs.length < 1 then .error ((path, "Array must contain at least 1 element(s)") :: is)
        else .error is := by
  rw [parseElems_eq]
  rfl

/-- The shared body of every config validator in the repository: run
`safeParse`; on success return `{success, data}`; on failure format each zod
issue as `path.join('.') + ": " + message` and return
`{success: false, error, details}`. -/
def zodValidate (schema : SType) (config : Json) : ValidationResult :=
  match parseAt schema [] config with
  | .ok d => { success := true, data := some d }
  | .error issues =>
    { success := false
      error := some "Configuration validation failed"
      details := some (issues.map (fun i => String.intercalate "." i.1 ++ ": " ++ i.2)) }

/-- `SelectConfigSchema` from the select validator module:
`options: z.array(z.union([z.string(), z.object({value, label})])).min(1)`,
`value: z.string()`, optional `placeholder`, `label`, `size` enum,
`disabled`, and a `styles` object of hex colors and `borderRadius` 0–100.
Note the schema has no cross-field refinement tying `value` to `options`. -/
def SelectOptionSchema : SType :=
  .objOf (.cons "value" false .str (.cons "label" false .str .nil))

/-- The select schema's declared top-level fields, in source-document
order. -/
def selectFields : SFields :=
  .cons "options" false (.arrayMin1 (.union2 .str SelectOptionSchema))
  (.cons "value" false .str
  (.cons "placeholder" true .str
  (.cons "label" true .str
  (.cons "size" true (.enumOf ["small", "medium", "large"])
  (.cons "disabled" true .boolean
  (.cons "styles" true (.objOf
    (.cons "color" true .hexColor
    (.cons "backgroundColor" true .hexColor
    (.cons "borderRadius" true (.numMinMax 0 100)
    (.cons "borderColor" true .hexColor .nil)))))
  .nil))))))

def SelectConfigSchema : SType := .objOf selectFields

/-- `validateSelectConfig` (select validator module). -/
def validateSelectConfig (config : Json) : ValidationResult :=
  zodValidate SelectConfigSchema config

/-- The progress schema (`src/validators/progressConfigValidator.ts`):
declared top-level fields, in source-document order. -/
def progressFields : SFields :=
  .cons "value" true (.numMin 0)
  (.cons "max" true (.numMin 1)
  (.cons "size" true (.enumOf ["small", "medium", "large"])
  (.cons "label" true .str
  (.cons "styles" true (.objOf
    (.cons "indicatorColor" true .hexColor
    (.cons "trackColor" true .hexColor
    (.cons "height" true (.numMinMax 1 100)
    (.cons "borderRadius" true (.numMinMax 0 100) .nil)))))
  .nil))))

def ProgressConfigSchema : SType := .objOf progressFields

/-- `validateProgressConfig` (`src/validators/progressConfigValidator.ts`). -/
def validateProgressConfig (config : Json) : ValidationResult :=
  zodValidate ProgressConfigSchema config

/-- `RadioConfigSchema` from `src/validators/radioConfigValidator.ts`. -/
def RadioConfigSchema : SType :=
  .objOf
    (.cons "options" false (.arrayMin1 .str)
    (.cons "selectedValue" false .str
    (.cons "size" true (.enumOf ["small", "medium", "large"])
    (.cons "disabled" true .boolean
    (.cons "color" true .str
    (.cons "styles" true (.objOf
      (.cons "color" true .hexColor
      (.cons "backgroundColor" true .hexColor
      (.cons "borderColor" true .hexColor .nil))))
    .nil))))))

/-- `validateRadioConfig` (`src/validators/radioConfigValidator.ts`). -/
def validateRadioConfig (config : Json) : ValidationResult :=
  zodValidate RadioConfigSchema config

/-- `AccordionConfigSchema` from `src/validators/accordionConfigValidator.ts`. -/
def AccordionConfigSchema : SType :=
  .objOf
    (.cons "title" true .str
    (.cons "content" true .str
    (.cons "size" true (.enumOf ["small", "medium", "large"])
    (.cons "styles" true (.objOf
      (.cons "borderRadius" true (.numMinMax 0 100)
      (.cons "backgroundColor" true .hexColor
      (.cons "borderColor" true .hexColor
      (.cons "titleColor" true .hexColor
      (.cons "answerColor" true .hexColor .nil))))))
    .nil))))

/-- `validateAccordionConfig` (`src/validators/accordionConfigValidator.ts`). -/
def validateAccordionConfig (config : Json) : ValidationResult :=
  zodValidate AccordionConfigSchema config

/-- `CardConfigSchema` from `src/validators/cardConfigValidator.ts`. -/
def CardConfigSchema : SType :=
  .objOf
    (.cons "title" false .str
    (.cons "description" false .str
    (.cons "image" true .boolean
    (.cons "styles" true (.objOf
      (.cons "backgroundColor" true .hexColor
      (.cons "borderColor" true .hexColor
      (.cons "borderWidth" true (.numMinMax 0 10)
      (.cons "borderRadius" true (.numMinMax 0 50)
      (.cons "titleColor" true .hexColor
      (.cons "fontColor" true .hexColor
      (.cons "padding" true (.objOf
        (.cons "px" false .numPositive
        (.cons "py" false .numPositive .nil)))
      (.cons "shadow" true (.enumOf ["none", "sm", "md", "lg"]) .nil)))))))))
    .nil))))

/-- `validateCardConfig` (`src/validators/cardConfigValidator.ts`). -/
def validateCardConfig (config : Json) : ValidationResult :=
  zodValidate CardConfigSchema config

/-- `IconButtonConfigSchema` from `src/validators/iconButtonConfigValidator.ts`. -/
def IconButtonConfigSchema : SType :=
  .objOf
    (.cons "label" true .str
    (.cons "showLabel" true .boolean
    (.cons "variant" false (.enumOf ["contained", "outlined"])
    (.cons "size" false (.enumOf ["small", "medium", "large"])
    (.cons "styles" true (.objOf
      (.cons "borderRadius" true (.numMinMax 0 100)
      (.cons "backgroundColor" true .hexColor
      (.cons "fontColor" true .hexColor
      (.cons "borderColor" true .hexColor
      (.cons "borderStyle" true (.enumOf ["solid", "dashed", "dotted"])
      (.cons "borderWidth" true (.numMinMax 0 20)
      (.cons "padding" true (.objOf
        (.cons "px" false .numPositive
        (.cons "py" false .numPositive .nil))) .nil))))))))
    .nil)))))

/-- `validateIconButtonConfig` (`src/validators/iconButtonConfigValidator.ts`). -/
def validateIconButtonConfig (config : Json) : ValidationResult :=
  zodValidate IconButtonConfigSchema config

/-- Modelled from the spec: the button config validator
(`src/validators/buttonConfigValidator.ts`) is referenced by the routers but
its source is not under `src/`; modelled as a schema validator over a
hex-color/number-bounded styles object in the style of the sibling
validators.  No claim depends on its field list. -/
def ButtonConfigSchemaM : SType :=
  .objOf
    (.cons "label" true .str
    (.cons "styles" true (.objOf
      (.cons "backgroundColor" true .hexColor
      (.cons "fontColor" true .hexColor
      (.cons "borderRadius" true (.numMinMax 0 100) .nil))))
    .nil))

/-- Modelled from the spec: button config validator (source not under src/). -/
def validateButtonConfig (config : Json) : ValidationResult :=
  zodValidate ButtonConfigSchemaM config

/-- `InputConfigSchema` from the input validator document concatenated into
`src/validators/iconButtonConfigValidator.ts` (second document): `label`,
`placeholder`, `variant` and `size` are required, plus an optional `styles`
object. -/
def InputConfigSchema : SType :=
  .objOf
    (.cons "label" false .str
    (.cons "placeholder" false .str
    (.cons "variant" false (.enumOf ["outlined", "standard"])
    (.cons "size" false (.enumOf ["small", "medium", "large"])
    (.cons "styles" true (.objOf
      (.cons "borderRadius" true (.numMinMax 0 100)
      (.cons "borderColor" true .hexColor
      (.cons "focusColor" true .hexColor
      (.cons "backgroundColor" true .hexColor
      (.cons "fontColor" true .hexColor
      (.cons "padding" true (.objOf
        (.cons "px" false .numPositive
        (.cons "py" false .numPositive .nil))) .nil)))))))
    .nil)))))

/-- `validateInputConfig` (same document): the shared safeParse wrapper with
`Configuration validation failed` and the try/catch. -/
def validateInputConfig (config : Json) : ValidationResult :=
  zodValidate InputConfigSchema config

/-- `ModalConfigSchema` from the modal validator document concatenated into
`src/validators/iconButtonConfigValidator.ts` (third document): required
`title` and `content`, optional `styles` with `borderRadius` 0-50, hex
`backgroundColor`/`titleColor`/`textColor` and a free-form `overlayColor`
string. -/
def ModalConfigSchema : SType :=
  .objOf
    (.cons "title" false .str
    (.cons "content" false .str
    (.cons "styles" true (.objOf
      (.cons "borderRadius" true (.numMinMax 0 50)
      (.cons "backgroundColor" true .hexColor
      (.cons "titleColor" true .hexColor
      (.cons "textColor" true .hexColor
      (.cons "overlayColor" true .str .nil))))))
    .nil)))

/-- `validateModalConfig` (same document): no try/catch, failure record uses
the error text `Invalid configuration` instead of the shared wrapper's. -/
def validateModalConfig (config : Json) : ValidationResult :=
  match parseAt ModalConfigSchema [] config with
  | .ok d => { success := true, data := some d }
  | .error issues =>
    { success := false
      error := some "Invalid configuration"
      details := some (issues.map (fun i => String.intercalate "." i.1 ++ ": " ++ i.2)) }

/-- `TabItemSchema` from the tabs validator document concatenated into
`src/validators/accordionConfigValidator.ts` (second document). -/
def TabItemSchema : SType :=
  .objOf
    (.cons "label" false .str
    (.cons "value" false .str
    (.cons "content" false .str .nil)))

/-- `TabsConfigSchema` (same document): a required min-1 array of tab items,
required `defaultValue`, optional `orientation`/`variant` enums and a
`styles` object whose `padding` is an unconstrained number. -/
def TabsConfigSchema : SType :=
  .objOf
    (.cons "tabs" false (.arrayMin1 TabItemSchema)
    (.cons "defaultValue" false .str
    (.cons "orientation" true (.enumOf ["horizontal", "vertical"])
    (.cons "variant" true (.enumOf ["standard", "enclosed", "outline", "soft", "solid"])
    (.cons "styles" true (.objOf
      (.cons "activeColor" true .hexColor
      (.cons "inactiveColor" true .hexColor
      (.cons "backgroundColor" true .hexColor
      (.cons "borderRadius" true (.numMinMax 0 50)
      (.cons "padding" true .num .nil))))))
    .nil)))))

/-- `validateTabsConfig` (same document): no try/catch, failure record uses
the error text `Invalid configuration`. -/
def validateTabsConfig (config : Json) : ValidationResult :=
  match parseAt TabsConfigSchema [] config with
  | .ok d => { success := true, data := some d }
  | .error issues =>
    { success := false
      error := some "Invalid configuration"
      details := some (issues.map (fun i => String.intercalate "." i.1 ++ ": " ++ i.2)) }

/-- JSON whitespace (`space`, `\t`, `\n`, `\r`) skipped by `JSON.parse`. -/
def jsonWs (c : Char) : Bool :=
  c = ' ' || c = '\t' || c = '\n' || c = '\r'

/-- Whitespace removed by JavaScript `String.prototype.trim` (the characters
relevant to this code base). -/
def jsWs (c : Char) : Bool :=
  c = ' ' || c = '\t' || c = '\n' || c = '\r' || c = '\x0b' || c = '\x0c'

/-- `String.prototype.trim`, on character lists. -/
def jsTrimL (l : List Char) : List Char :=
  ((l.dropWhile jsWs).reverse.dropWhile jsWs).reverse

/-- Parse the body of a JSON string literal (after the opening quote),
returning the decoded characters and the rest of the input.  Handles the
standard single-character escapes; `\u` escapes are not modelled (no input
in this code base uses them). -/
def parseStringBody : List Char → Option (List Char × List Char)
  | [] => none
  | '"' :: rest => some ([], rest)
  | '\\' :: e :: rest =>
    let dec : Option Char :=
      if e = '"' then some '"'
      else if e = '\\' then some '\\'
      else if e = '/' then some '/'
      else if e = 'n' then some '\n'
      else if e = 't' then some '\t'
      else if e = 'r' then some '\r'
      else if e = 'b' then some '\x08'
      else if e = 'f' then some '\x0c'
      else none
    match dec with
    | none => none
    | some c =>
      match parseStringBody rest with
      | none => none
      | some (cs, rem) => some (c :: cs, rem)
  | c :: rest =>
    match parseStringBody rest with
    | none => none
    | some (cs, rem) => some (c :: cs, rem)

/-- Parse a run of decimal digits into a natural number. -/
def parseDigits : Nat → List Char → Option (Nat × List Char)
  | acc, c :: rest =>
    if c.isDigit then parseDigits (acc * 10 + (c.toNat - '0'.toNat)) rest
    else some (acc, c :: rest)
  | _, [] => none

mutual
/-- Recursive-descent model of `JSON.parse` (values), fuelled to make the
recursion structural.  Numbers are modelled as integers (see `Json`). -/
def parseVal : Nat → List Char → Option (Json × List Char)
  | 0, _ => none
  | fuel + 1, cs =>
    match cs.dropWhile jsonWs with
    | [] => none
    | 'n' :: 'u' :: 'l' :: 'l' :: rest => some (.null, rest)
    | 't' :: 'r' :: 'u' :: 'e' :: rest => some (.bool true, rest)
    | 'f' :: 'a' :: 'l' :: 's' :: 'e' :: rest => some (.bool false, rest)
    | '"' :: rest =>
      match parseStringBody rest with
      | none => none
      | some (cs', rem) => some (.str (String.mk cs'), rem)
    | '-' :: rest =>
      match rest with
      | d :: _ =>
        if d.isDigit then
          match parseDigits 0 rest with
          | none => none
          | some (n, rem) => some (.num (-(n : Int)), rem)
        else none
      | [] => none
    | '[' :: rest => parseArrItems fuel rest true
    | '\x7b' :: rest => parseObjItems fuel rest true
    | d :: rest =>
      if d.isDigit then
        match parseDigits 0 (d :: rest) with
        | none => none
        | some (n, rem) => some (.num (n : Int), rem)
      else none

/-- Model of `JSON.parse` array bodies (after `[`). -/
def parseArrItems (fuel : Nat) (cs : List Char) (first : Bool) : Option (Json × List Char) :=
  match fuel with
  | 0 => none
  | fuel + 1 =>
    match cs.dropWhile jsonWs with
    | ']' :: rest => if first then some (.arr [], rest) else none
    | cs' =>
      match parseVal fuel cs' with
      | none => none
      | some (v, rem) =>
        match rem.dropWhile jsonWs with
        | ',' :: rest =>
          match parseArrItems fuel rest false with
          | some (.arr vs, rem2) => some (.arr (v :: vs), rem2)
          | _ => none
        | ']' :: rest => some (.arr [v], rest)
        | _ => none

/-- Model of `JSON.parse` object bodies (after `{`); a duplicate key
overwrites the earlier one, as in JavaScript. -/
def parseObjItems (fuel : Nat) (cs : List Char) (first : Bool) : Option (Json × List Char) :=
  match fuel with
  | 0 => none
  | fuel + 1 =>
    match cs.dropWhile jsonWs with
    | '\x7d' :: rest => if first then some (.obj [], rest) else none
    | '"' :: cs' =>
      match parseStringBody cs' with
      | none => none
      | some (key, rem0) =>
        match rem0.dropWhile jsonWs with
        | ':' :: rem1 =>
          match parseVal fuel rem1 with
          | none => none
          | some (v, rem) =>
            match rem.dropWhile jsonWs with
            | ',' :: rest =>
              match parseObjItems fuel rest false with
              | some (.obj kvs, rem2) =>
                some (.obj ((String.mk key, v) :: kvs.filter (fun p => p.1 ≠ String.mk key)), rem2)
              | _ => none
            | '\x7d' :: rest => some (.obj [(String.mk key, v)], rest)
            | _ => none
        | _ => none
    | _ => none
end

/-- Model of `JSON.parse` on character lists: a single value, with nothing
but whitespace allowed after it. -/
def jsonParseL (cs : List Char) : Option Json :=
  match parseVal (cs.length + 1) cs with
  | none => none
  | some (v, rest) => if (rest.dropWhile jsonWs).isEmpty then some v else none

/-- Model of `JSON.parse` on strings. -/
def jsonParse (s : String) : Option Json :=
  jsonParseL s.toList

/-- The markdown-fence fallback of `extractJSON`: the sequential
`replace(/^```json\s*/i, "").replace(/^```\s*/, "").replace(/```\s*$/, "")`. -/
def stripFences (l : List Char) : List Char :=
  let l1 :=
    match l with
    | '\x60' :: '\x60' :: '\x60' :: c1 :: c2 :: c3 :: c4 :: rest =>
      if c1.toLower = 'j' && c2.toLower = 's' && c3.toLower = 'o' && c4.toLower = 'n' then
        rest.dropWhile jsWs
      else l
    | _ => l
  let l2 :=
    match l1 with
    | '\x60' :: '\x60' :: '\x60' :: rest => rest.dropWhile jsWs
    | _ => l1
  let r := l2.reverse.dropWhile jsWs
  match r with
  | '\x60' :: '\x60' :: '\x60' :: rest => rest.reverse
  | _ => l2

/-- The candidate-selection step of `extractJSON`: on the trimmed text, cut
from the first `\x7b` to the last `\x7d` when such a pair exists in order,
otherwise fall back to stripping markdown fences. -/
def extractCandidate (cleaned : List Char) : List Char :=
  match cleaned.findIdx? (fun c => c = '\x7b'),
        (cleaned.reverse.findIdx? (fun c => c = '\x7d')).map (fun i => cleaned.length - 1 - i) with
  | some f, some l => if f < l then (cleaned.drop f).take (l + 1 - f) else stripFences cleaned
  | some _, none => stripFences cleaned
  | none, _ => stripFences cleaned

/-- `extractJSON` (identical in `src/services/aiService.ts` and the gemini
engine module): trim, cut from the first `\x7b` to the last `\x7d` when such
a pair exists (`extractCandidate`), otherwise strip markdown fences, then
`JSON.parse`.  The source throws `"Failed to parse JSON response"` on parse
failure; the throw is modelled as `none`. -/
def extractJSON (text : String) : Option Json :=
  jsonParseL (extractCandidate (jsTrimL text.toList))

/-- `GenerateConfigResponse` as in the source (optional fields modelled as
`Option`). -/
structure GenerateConfigResponse where
  success : Bool
  config : Option Json := none
  attempts : Option Nat := none
  error : Option String := none
  lastError : Option String := none
deriving Repr

/-- The generation backend (`getModel().generateContent` / `callGemini`),
modelled as an oracle from the attempt index to either the response text or
a thrown error message.  The real backend is non-deterministic; fixing one
trace of it as a function of the attempt index is the standard shallow
embedding of the loop's interaction. -/
abbrev Backend := Nat → Except String String

/-- `validation.details?.join("\n") || validation.error || fallback` —
JavaScript truthiness on the joined detail list and the error field. -/
def validationErrText (v : ValidationResult) (fallback : String) : String :=
  let joined : Option String := v.details.map (String.intercalate "\n")
  match joined with
  | some j => if j = "" then (match v.error with
      | some e => if e = "" then fallback else e
      | none => fallback)
    else j
  | none =>
    match v.error with
    | some e => if e = "" then fallback else e
    | none => fallback

/-- The feedback block appended to a retry prompt:
`"\n\nPREVIOUS ATTEMPT FAILED WITH ERRORS:\n" + lastValidationError + tail`
where `tail` is `"\n\nPlease fix these errors and try again."` (with
`" Return ONLY the corrected JSON."` appended in some of the per-kind
loops). -/
def feedbackBlock (err tail : String) : String :=
  "\n\nPREVIOUS ATTEMPT FAILED WITH ERRORS:\n" ++ err ++ tail

/-- The prompt sent on loop iteration `i`: the base system prompt, plus the
feedback block when `i > 0 && lastValidationError` (JS truthiness: the string
is non-empty). -/
def loopPrompt (base tail : String) (i : Nat) (lastErr : String) : String :=
  base ++ (if i > 0 ∧ lastErr ≠ "" then feedbackBlock lastErr tail else "")

/-- One loop iteration's classification, mirroring the `try`-block of every
retry loop: backend throw, extraction throw, or a validation outcome. -/
def attemptFailsB (validator : Json → ValidationResult) (backend : Backend) (k : Nat) : Bool :=
  match backend k with
  | .error _ => true
  | .ok text =>
    match extractJSON text with
    | none => true
    | some cfg => !(validator cfg).success

/-- The error text recorded by iteration `k` when it fails: the thrown
message (backend error, or `"Failed to parse JSON response"` from
`extractJSON`), otherwise the joined validation details. -/
def recordedErr (validator : Json → ValidationResult) (fallback : String) (backend : Backend) (k : Nat) : String :=
  match backend k with
  | .error e => e
  | .ok text =>
    match extractJSON text with
    | none => "Failed to parse JSON response"
    | some cfg => validationErrText (validator cfg) fallback

/-- The common `for (let i = 0; i < MAX_RETRIES; i++)` body shared verbatim
by every config retry loop in `src/services/aiService.ts` and by
`generateWithValidation` in the generic engine: build the prompt (appending
feedback on retries), call the backend, extract, validate; return on
success, otherwise record the error text and continue.  Returns the
response together with the list of prompts actually sent (the loop's
observable interaction trace).  `fuel` is the remaining iteration count. -/
def runRetryLoopAux (validator : Json → ValidationResult) (base tail fallback exhaustMsg : String)
    (backend : Backend) : Nat → Nat → Nat → String → GenerateConfigResponse × List String
  | 0, _, attempts, lastErr =>
    ({ success := false, error := some exhaustMsg, lastError := some lastErr,
       attempts := some attempts }, [])
  | fuel + 1, i, attempts, lastErr =>
    match backend i with
    | .error e =>
      ((runRetryLoopAux validator base tail fallback exhaustMsg backend fuel (i + 1) (attempts + 1) e).1,
       loopPrompt base tail i lastErr ::
       (runRetryLoopAux validator base tail fallback exhaustMsg backend fuel (i + 1) (attempts + 1) e).2)
    | .ok text =>
      match extractJSON text with
      | none =>
        ((runRetryLoopAux validator base tail fallback exhaustMsg backend fuel (i + 1) (attempts + 1)
            "Failed to parse JSON response").1,
         loopPrompt base tail i lastErr ::
         (runRetryLoopAux validator base tail fallback exhaustMsg backend fuel (i + 1) (attempts + 1)
            "Failed to parse JSON response").2)
      | some cfg =>
        if (validator cfg).success then
          ({ success := true, config := (validator cfg).data, attempts := some (attempts + 1) },
           [loopPrompt base tail i lastErr])
        else
          ((runRetryLoopAux validator base tail fallback exhaustMsg backend fuel (i + 1) (attempts + 1)
              (validationErrText (validator cfg) fallback)).1,
           loopPrompt base tail i lastErr ::
           (runRetryLoopAux validator base tail fallback exhaustMsg backend fuel (i + 1) (attempts + 1)
              (validationErrText (validator cfg) fallback)).2)

/-- A whole retry loop: `maxRetries` iterations starting from `i = 0`,
`attempts = 0`, empty feedback. -/
def runRetryLoop (validator : Json → ValidationResult) (base tail fallback exhaustMsg : String)
    (backend : Backend) (maxRetries : Nat) : GenerateConfigResponse × List String :=
  runRetryLoopAux validator base tail fallback exhaustMsg backend maxRetries 0 0 ""

/-- The retry-feedback tail used by the select/radio/card/modal/tabs/progress
loops and the generic engine. -/
def tailShort : String := "\n\nPlease fix these errors and try again."

/-- The retry-feedback tail used by the button/icon-button/accordion/input
loops. -/
def tailLong : String := "\n\nPlease fix these errors and try again. Return ONLY the corrected JSON."

/-- `MAX_RETRIES` of `src/services/aiService.ts`. -/
def aiServiceMaxRetries : Nat := 5

/-- `MAX_RETRIES` of the generic engine module (`generateWithValidation`). -/
def genericMaxRetries : Nat := 3

/-- The exhaustion error of the per-kind loops in `aiService.ts`. -/
def aiExhaustMsg : String := "Failed to generate valid configuration after 5 attempts"

/-- `generateSelectConfig` of `src/services/aiService.ts` (5-attempt loop
around `validateSelectConfig`); the base system prompt is abstracted as a
parameter since only its constancy across attempts matters (the literal
instruction text is attempt-independent in the source). -/
def generateSelectConfig (base : String) (backend : Backend) : GenerateConfigResponse × List String :=
  runRetryLoop validateSelectConfig base tailShort "Unknown validation error" aiExhaustMsg backend aiServiceMaxRetries

/-- `generateProgressConfig` of `src/services/aiService.ts`. -/
def generateProgressConfig (base : String) (backend : Backend) : GenerateConfigResponse × List String :=
  runRetryLoop validateProgressConfig base tailShort "Unknown validation error" aiExhaustMsg backend aiServiceMaxRetries

/-- `generateWithValidation` of the generic engine module: a 3-attempt loop
parameterized by the validator, exhaustion error `"Retries exhausted"`,
validation fallback `"Validation failed"`. -/
def generateWithValidation (validator : Json → ValidationResult) (base : String)
    (backend : Backend) : GenerateConfigResponse × List String :=
  runRetryLoop validator base tailShort "Validation failed" "Retries exhausted" backend genericMaxRetries

/-- The component names the `aiService.ts` router supports. -/
def supportedKinds : List String :=
  ["button", "icon-button", "accordion", "input", "select", "radio", "card", "modal", "tabs", "progress"]

/-- `generateConfig` of `src/services/aiService.ts`: route the request by
`componentName` to the matching per-kind 5-attempt loop, or return the
unsupported-component error without any backend interaction.  Per-kind base
prompts are abstracted by a single `base` parameter (they are constant per
request in the source). -/
def aiGenerateConfig (base : String) (backend : Backend) (componentName : String) :
    GenerateConfigResponse × List String :=
  if componentName = "button" then
    runRetryLoop validateButtonConfig base tailLong "Unknown validation error" aiExhaustMsg backend aiServiceMaxRetries
  else if componentName = "icon-button" then
    runRetryLoop validateIconButtonConfig base tailLong "Unknown validation error" aiExhaustMsg backend aiServiceMaxRetries
  else if componentName = "accordion" then
    runRetryLoop validateAccordionConfig base tailLong "Unknown validation error" aiExhaustMsg backend aiServiceMaxRetries
  else if componentName = "input" then
    runRetryLoop validateInputConfig base tailLong "Unknown validation error" aiExhaustMsg backend aiServiceMaxRetries
  else if componentName = "select" then generateSelectConfig base backend
  else if componentName = "radio" then
    runRetryLoop validateRadioConfig base tailShort "Unknown validation error" aiExhaustMsg backend aiServiceMaxRetries
  else if componentName = "card" then
    runRetryLoop validateCardConfig base tailShort "Unknown validation error" aiExhaustMsg backend aiServiceMaxRetries
  else if componentName = "modal" then
    runRetryLoop validateModalConfig base tailShort "Unknown validation error" aiExhaustMsg backend aiServiceMaxRetries
  else if componentName = "tabs" then
    runRetryLoop validateTabsConfig base tailShort "Unknown validation error" aiExhaustMsg backend aiServiceMaxRetries
  else if componentName = "progress" then generateProgressConfig base backend
  else
    ({ success := false,
       error := some ("Component \"" ++ componentName ++ "\" is not supported") }, [])

/-- `generateConfig` of the generic engine module: the playground branch
(one un-validated extraction shot) for the `'playground'` / absent component
name, the `generateWithValidation` 3-attempt loop for supported kinds, and
the unsupported-component error otherwise.  The playground prompt is
abstracted as `pPrompt`. -/
def gcGenerateConfig (base pPrompt : String) (backend : Backend) (componentName : Option String) :
    GenerateConfigResponse × List String :=
  let isPlayground := componentName = some "playground" ∨ componentName = none ∨ componentName = some ""
  if isPlayground then
    match backend 0 with
    | .error e => ({ success := false, error := some e }, [pPrompt])
    | .ok text =>
      match extractJSON text with
      | none => ({ success := false, error := some "Failed to parse JSON response" }, [pPrompt])
      | some generated => ({ success := true, config := some generated }, [pPrompt])
  else
    match componentName with
    | none => ({ success := false, error := some "Component \"undefined\" is not supported" }, [])
    | some n =>
      if n = "button" then generateWithValidation validateButtonConfig base backend
      else if n = "icon-button" then generateWithValidation validateIconButtonConfig base backend
      else if n = "accordion" then generateWithValidation validateAccordionConfig base backend
      else if n = "input" then generateWithValidation validateInputConfig base backend
      else if n = "select" then generateWithValidation validateSelectConfig base backend
      else if n = "radio" then generateWithValidation validateRadioConfig base backend
      else if n = "card" then generateWithValidation validateCardConfig base backend
      else if n = "modal" then generateWithValidation validateModalConfig base backend
      else if n = "tabs" then generateWithValidation validateTabsConfig base backend
      else if n = "progress" then generateWithValidation validateProgressConfig base backend
      else ({ success := false, error := some ("Component \"" ++ n ++ "\" is not supported") }, [])

/-- `ProviderRegistryEntry` (`src/constants/providerRegistry.ts`). -/
structure ProviderRegistryEntry where
  id : String
  importPath : String
  allowedComponents : List String
deriving Repr

/-- The `mui` provider registry entry. -/
def muiEntry : ProviderRegistryEntry :=
  { id := "mui", importPath := "@mui/material",
    allowedComponents := ["Box", "Typography", "Button", "Stack", "Paper", "Grid", "Card",
      "CardContent", "CircularProgress", "IconButton", "TextField", "Switch", "Checkbox",
      "Select", "MenuItem", "Slider", "Alert", "Avatar", "Tooltip"] }

/-- The `chakra` provider registry entry. -/
def chakraEntry : ProviderRegistryEntry :=
  { id := "chakra", importPath := "@chakra-ui/react",
    allowedComponents := ["Box", "Text", "Button", "Stack", "VStack", "HStack", "Heading",
      "Card", "CardHeader", "CardBody", "CardFooter", "CircularProgress", "IconButton",
      "Input", "Switch", "Checkbox", "Select", "Slider", "Alert", "AlertIcon", "AlertTitle",
      "AlertDescription", "Avatar", "Tooltip", "Tabs", "TabList", "TabPanels", "Tab",
      "TabPanel", "Modal", "ModalOverlay", "ModalContent", "ModalHeader", "ModalFooter",
      "ModalBody", "ModalCloseButton"] }

/-- The `antd` provider registry entry. -/
def antdEntry : ProviderRegistryEntry :=
  { id := "antd", importPath := "antd",
    allowedComponents := ["Button", "Divider", "Typography", "Space", "Card", "Progress",
      "Flex", "Input", "Switch", "Checkbox", "Select", "Slider", "Alert", "Avatar",
      "Tooltip", "Tabs", "Modal"] }

/-- The `shadcn` provider registry entry. -/
def shadcnEntry : ProviderRegistryEntry :=
  { id := "shadcn", importPath := "@/components/ui",
    allowedComponents := ["Card", "CardHeader", "CardTitle", "CardContent", "Button",
      "Input", "Slider", "Accordion", "AccordionItem", "AccordionTrigger",
      "AccordionContent", "Tabs", "TabsList", "TabsTrigger", "TabsContent", "Dialog",
      "DialogContent", "DialogHeader", "DialogTitle", "DialogTrigger", "Select",
      "SelectTrigger", "SelectValue", "SelectContent", "SelectItem", "RadioGroup",
      "RadioGroupItem", "Switch", "Checkbox", "Avatar", "AvatarImage", "AvatarFallback",
      "Tooltip", "TooltipProvider", "TooltipTrigger", "TooltipContent", "Alert",
      "AlertTitle", "AlertDescription", "Label", "Separator", "Badge"] }

/-- `providerRegistry` (`src/constants/providerRegistry.ts`): the static
per-provider import path and closed component list. -/
def providerRegistry : List (String × ProviderRegistryEntry) :=
  [("mui", muiEntry), ("chakra", chakraEntry), ("antd", antdEntry), ("shadcn", shadcnEntry)]

/-- The Babel front end (`transform` with the react/typescript presets),
modelled as an oracle: `.ok ()` when the source compiles, `.error msg` with
the compiler diagnostic when it throws.  Babel is an external library, so it
enters the embedding as a parameter, exactly like the generation backend. -/
abbrev BabelOracle := String → Except String Unit

/-- The result shape of `validateCode` (`src/utils/codeValidator.ts`). -/
structure CodeValidationResult where
  success : Bool
  error : Option String := none
deriving Repr

/-- `validateCode` (`src/utils/codeValidator.ts`): run the candidate source
through Babel; success/failure with the diagnostic.  Note the `provider`
parameter is accepted but never used by the body — the registry's
`allowedComponents` never reach this function. -/
def validateCode (babel : BabelOracle) (code : String) (provider : Option String) :
    CodeValidationResult :=
  match provider, babel code with
  | _, .ok _ => { success := true }
  | _, .error m => { success := false, error := some m }

/-- Modelled from the spec: Babel's `transform` throws when handed a
non-string `code` value; the playground response is untyped JSON, so a
provider entry may hold a non-string.  The exact diagnostic text is not
observable in any claim. -/
def nonStringCodeMsg : String := "Code must be a string"

/-- The provider-validation section of `generateComponentCode`
(`src/controllers/codeController.ts`): `for (const provider in
generatedConfig)` run `validateCode`; on the first failure set
`allValid = false` and record `` `Provider ${provider}: ${validation.error}` ``
and `break`.  Returns `(allValid, validationError)`. -/
def checkProviders (babel : BabelOracle) : List (String × Json) → Bool × String
  | [] => (true, "")
  | (provider, code) :: rest =>
    match code with
    | .str s =>
      match babel s with
      | .ok _ => checkProviders babel rest
      | .error m => (false, "Provider " ++ provider ++ ": " ++ m)
    | _ => (false, "Provider " ++ provider ++ ": " ++ nonStringCodeMsg)

/-- The whole per-attempt validation of `generateComponentCode`: object
configs check every provider entry, a bare string is checked alone, any
other value leaves `allValid = true`. -/
def attemptValid (babel : BabelOracle) : Json → Bool × String
  | .obj kvs => checkProviders babel kvs
  | .str s =>
    match babel s with
    | .ok _ => (true, "")
    | .error m => (false, m)
  | _ => (true, "")

/-- The HTTP response sent by `generateComponentCode`. -/
structure CodeHttpResponse where
  status : Nat
  success : Bool
  config : Option Json := none
  attempts : Option Nat := none
  error : Option String := none
  lastError : Option String := none
deriving Repr

/-- The prompt `generateComponentCode` passes to the AI service on attempt
`i` (0-based): the user's prompt first, then the fix-compilation-errors
prompt carrying the previous attempt's `lastError`. -/
def codePrompt (userPrompt : String) (i : Nat) (lastError : String) : String :=
  if i = 0 then userPrompt
  else "The previous code generated had compilation errors. Please fix them. Error: " ++ lastError

/-- The playground generation call made by the controller per attempt
(the `componentName: 'playground'` branch of the generic engine's
`generateConfig`): one backend call, one extraction, no schema
validation. -/
def playgroundGenerate (backend : Backend) (i : Nat) : GenerateConfigResponse :=
  match backend i with
  | .error e => { success := false, error := some e }
  | .ok text =>
    match extractJSON text with
    | none => { success := false, error := some "Failed to parse JSON response" }
    | some generated => { success := true, config := some generated }

/-- `MAX_CODE_RETRIES` of `src/controllers/codeController.ts`. -/
def maxCodeRetries : Nat := 5

/-- The retry loop of `generateComponentCode`
(`src/controllers/codeController.ts`): per attempt, call the playground
generation (a failed generation short-circuits to a 500 response), check
every provider's code with Babel, answer 200 on success, otherwise carry
the `Provider ...` feedback into the next prompt; 422 after 5 attempts.
Returns the response and the prompts sent. -/
def codeControllerLoopAux (babel : BabelOracle) (backend : Backend) (userPrompt : String) :
    Nat → Nat → String → CodeHttpResponse × List String
  | 0, _, lastError =>
    ({ status := 422, success := false,
       error := some "Failed to generate valid code after 5 attempts",
       lastError := some lastError }, [])
  | fuel + 1, i, lastError =>
    if (playgroundGenerate backend i).success = false then
      ({ status := 500, success := false, error := (playgroundGenerate backend i).error,
         lastError := (playgroundGenerate backend i).lastError },
       [codePrompt userPrompt i lastError])
    else
      match (playgroundGenerate backend i).config with
      | none =>
        -- unreachable: a successful playground generation always carries a config
        ({ status := 500, success := false }, [codePrompt userPrompt i lastError])
      | some generated =>
        if (attemptValid babel generated).1 then
          ({ status := 200, success := true, config := some generated,
             attempts := some (i + 1) }, [codePrompt userPrompt i lastError])
        else
          ((codeControllerLoopAux babel backend userPrompt fuel (i + 1)
              (attemptValid babel generated).2).1,
           codePrompt userPrompt i lastError ::
           (codeControllerLoopAux babel backend userPrompt fuel (i + 1)
              (attemptValid babel generated).2).2)

/-- `generateComponentCode`'s loop from the start. -/
def codeControllerLoop (babel : BabelOracle) (backend : Backend) (userPrompt : String) :
    CodeHttpResponse × List String :=
  codeControllerLoopAux babel backend userPrompt maxCodeRetries 0 ""

/-! ## Helper lemmas about the zod embedding -/

theorem lookup_mem_fst {kvs : List (String × Json)} {n : String} {v : Json}
    (h : kvs.lookup n = some v) : n ∈ kvs.map Prod.fst := by
  induction kvs with
  | nil => simp [List.lookup] at h
  | cons p rest ih =>
    rw [List.lookup] at h
    by_cases hn : n = p.1
    · simp [hn]
    · simp [beq_eq_false_iff_ne.mpr hn] at h
      simp [ih h]

theorem lookup_eq_none_of_not_mem : ∀ {kvs : List (String × Json)} {n : String},
    n ∉ kvs.map Prod.fst → kvs.lookup n = none
  | [], _, _ => rfl
  | p :: rest, n, h => by
    rw [List.lookup]
    simp only [List.map_cons, List.mem_cons] at h
    push_neg at h
    have hne : (n == p.1) = false := beq_eq_false_iff_ne.mpr h.1
    simp only [hne]
    exact lookup_eq_none_of_not_mem h.2

theorem lookup_append_of_not_mem {kvs extras : List (String × Json)} {n : String}
    (h : n ∉ extras.map Prod.fst) : (kvs ++ extras).lookup n = kvs.lookup n := by
  induction kvs with
  | nil => simp [lookup_eq_none_of_not_mem h, List.lookup]
  | cons p rest ih =>
    rw [List.cons_append, List.lookup, List.lookup]
    cases hb : n == p.1 <;> simp [ih]


/-- `parseField1` succeeds with either no contribution (missing optional
field) or exactly the singleton parsed binding. -/
theorem parseField1_ok_shape {name : String} {opt : Bool} {ty : SType}
    {path : List String} {kvs a} (h : parseField1 name opt ty path kvs = .ok a) :
    a = [] ∨ ∃ y, a = [(name, y)] := by
  rw [parseField1] at h
  split at h
  · split at h
    · simp at h
      exact Or.inl (by simp [h])
    · simp at h
  · split at h
    · rename_i y heq
      simp at h
      exact Or.inr ⟨y, by simp [h]⟩
    · simp at h

/-- `parseField1` only inspects the candidate through the lookup of its own
field name. -/
theorem parseField1_congr {name : String} {opt : Bool} {ty : SType}
    {path : List String} {kvs1 kvs2} (h : kvs1.lookup name = kvs2.lookup name) :
    parseField1 name opt ty path kvs1 = parseField1 name opt ty path kvs2 := by
  rw [parseField1, parseField1, h]

/-- `parseFields` only inspects the candidate through lookups of the declared
field names. -/
theorem parseFields_congr : ∀ (fs : SFields) (path : List String)
    (kvs1 kvs2 : List (String × Json)),
    (∀ n ∈ fs.names, kvs1.lookup n = kvs2.lookup n) →
    parseFields fs path kvs1 = parseFields fs path kvs2
  | .nil, _, _, _, _ => by rw [parseFields, parseFields]
  | .cons name opt ty rest, path, kvs1, kvs2, h => by
    have hname : kvs1.lookup name = kvs2.lookup name := h name (by simp [SFields.names])
    have hrest := parseFields_congr rest path kvs1 kvs2
      (fun n hn => h n (by simp [SFields.names, hn]))
    rw [parseFields_cons, parseFields_cons, parseField1_congr hname, hrest]

/-- The keys of a successfully parsed (stripped) object all come from the
schema's declared field names. -/
theorem parseFields_ok_keys : ∀ (fs : SFields) (path : List String)
    (kvs out : List (String × Json)),
    parseFields fs path kvs = .ok out →
    ∀ k ∈ out.map Prod.fst, k ∈ fs.names
  | .nil, path, kvs, out, h => by
    rw [parseFields] at h
    cases h
    simp
  | .cons name opt ty rest, path, kvs, out, h => by
    rw [parseFields_cons] at h
    revert h
    cases hcur : parseField1 name opt ty path kvs with
    | error is => cases hrec : parseFields rest path kvs <;> intro h <;> cases h
    | ok a =>
      cases hrec : parseFields rest path kvs with
      | error is => intro h; cases h
      | ok b =>
        intro h
        cases h
        intro k hk
        simp only [List.map_append, List.mem_append] at hk
        rcases hk with hk | hk
        · rcases parseField1_ok_shape hcur with rfl | ⟨y, rfl⟩
          · simp at hk
          · simp at hk
            simp [SFields.names, hk]
        · exact List.mem_cons_of_mem _ (parseFields_ok_keys rest path kvs b hrec k hk)

/-- The per-field issue harvest: walking the declared fields in schema source
order, each field contributes its own issues (empty when the field parses). -/
def fieldIssues (path : List String) (kvs : List (String × Json)) : SFields → List ZIssue
  | .nil => []
  | .cons name opt ty rest =>
    (match parseField1 name opt ty path kvs with
     | .ok _ => []
     | .error is => is) ++ fieldIssues path kvs rest

/-- A fully successful field walk harvests no issues. -/
theorem parseFields_ok_issues_nil : ∀ (fs : SFields) (path : List String)
    (kvs out : List (String × Json)),
    parseFields fs path kvs = .ok out →
    fieldIssues path kvs fs = []
  | .nil, _, _, _, _ => rfl
  | .cons name opt ty rest, path, kvs, out, h => by
    rw [parseFields_cons] at h
    rw [fieldIssues]
    revert h
    cases hcur : parseField1 name opt ty path kvs with
    | error is => cases hrec : parseFields rest path kvs <;> intro h <;> cases h
    | ok a =>
      cases hrec : parseFields rest path kvs with
      | error is => intro h; cases h
      | ok b =>
        intro _
        simp [parseFields_ok_issues_nil rest path kvs b hrec]

/-- A failing `parseFields` reports exactly the concatenation of every
field's own issues, in schema source order — never a collapsed summary. -/
theorem parseFields_error_eq : ∀ (fs : SFields) (path : List String)
    (kvs : List (String × Json)) (is : List ZIssue),
    parseFields fs path kvs = .error is →
    is = fieldIssues path kvs fs
  | .nil, path, kvs, is, h => by rw [parseFields] at h; cases h
  | .cons name opt ty rest, path, kvs, is, h => by
    rw [parseFields_cons] at h
    rw [fieldIssues]
    revert h
    cases hcur : parseField1 name opt ty path kvs with
    | ok a =>
      cases hrec : parseFields rest path kvs with
      | ok b => intro h; cases h
      | error is2 => intro h; cases h; simpa using parseFields_error_eq rest path kvs _ hrec
    | error is1 =>
      cases hrec : parseFields rest path kvs with
      | ok b =>
        intro h; cases h
        simp [parseFields_ok_issues_nil rest path kvs b hrec]
      | error is2 =>
        intro h; cases h
        simp [parseFields_error_eq rest path kvs _ hrec]

/-- Primitive (non-container) schema types: their successful parse returns
the input value unchanged. -/
def isPrim : SType → Bool
  | .str | .hexColor | .numMin _ | .numMinMax _ _ | .numPositive | .num | .boolean | .enumOf _ => true
  | .arrayMin1 _ | .union2 _ _ | .objOf _ => false

/-- No duplicate field names. -/
def allDistinct : List String → Bool
  | [] => true
  | x :: xs => !xs.contains x && allDistinct xs

mutual
/-- Schemas whose validation is idempotent on accepted values.  Every schema
in the repository satisfies this: the only union used is
`z.union([z.string(), SelectOptionSchema])`, whose left branch is a
primitive, and every object's field names are distinct. -/
def idemOK : SType → Bool
  | .arrayMin1 e => idemOK e
  | .union2 a b => isPrim a && idemOK b
  | .objOf fs => fieldsIdemOK fs && allDistinct fs.names
  | _ => true
/-- All field schemas idempotency-compatible. -/
def fieldsIdemOK : SFields → Bool
  | .nil => true
  | .cons _ _ ty rest => idemOK ty && fieldsIdemOK rest
end

/-- A primitive schema's successful parse returns its input. -/
theorem prim_ok_eq : ∀ (t : SType) (path : List String) (c d : Json),
    isPrim t = true → parseAt t path c = .ok d → d = c := by
  intro t path c d hp h
  cases t <;> simp [isPrim] at hp <;> cases c <;>
    rw [parseAt] at h <;> (try split at h) <;> (try split at h) <;> simp_all

/-- A successful element parse preserves the element count. -/
theorem parseElems_ok_length : ∀ (e : SType) (path : List String) (i : Nat)
    (xs ys : List Json), parseElems e path i xs = .ok ys → ys.length = xs.length
  | _, _, _, [], ys, h => by
    rw [parseElems] at h
    cases h
    rfl
  | e, path, i, x :: xs, ys, h => by
    rw [parseElems] at h
    revert h
    cases hp : parseAt e (path ++ [toString i]) x with
    | error is => cases hr : parseElems e path (i + 1) xs <;> intro h <;> cases h
    | ok y =>
      cases hr : parseElems e path (i + 1) xs with
      | error is => intro h; cases h
      | ok ys2 =>
        intro h
        cases h
        simp [parseElems_ok_length e path (i + 1) xs ys2 hr]

/-- Idempotence is immediate for primitive schemas. -/
theorem parseAt_idem_of_prim {t : SType} {path : List String} {c d : Json}
    (hp : isPrim t = true) (h : parseAt t path c = .ok d) : parseAt t path d = .ok d := by
  have hd := prim_ok_eq t path c d hp h
  subst hd
  exact h

mutual
/-- Validation is idempotent on accepted values, for every schema built from
the repository's combinators (`idemOK`). -/
theorem parseAt_idem : ∀ (t : SType) (path : List String) (c d : Json),
    idemOK t = true → parseAt t path c = .ok d → parseAt t path d = .ok d
  | .str, _, _, _, _, h => parseAt_idem_of_prim rfl h
  | .hexColor, _, _, _, _, h => parseAt_idem_of_prim rfl h
  | .numMin _, _, _, _, _, h => parseAt_idem_of_prim rfl h
  | .numMinMax _ _, _, _, _, _, h => parseAt_idem_of_prim rfl h
  | .numPositive, _, _, _, _, h => parseAt_idem_of_prim rfl h
  | .num, _, _, _, _, h => parseAt_idem_of_prim rfl h
  | .boolean, _, _, _, _, h => parseAt_idem_of_prim rfl h
  | .enumOf _, _, _, _, _, h => parseAt_idem_of_prim rfl h
  | .arrayMin1 e, path, c, d, hok, h => by
    rw [idemOK] at hok
    cases c with
    | arr xs =>
      rw [parseAt_arr] at h
      split at h
      · rename_i ys hp
        split at h
        · simp at h
        · rename_i hlen
          injection h with hd
          subst hd
          have hlen2 : ys.length = xs.length := parseElems_ok_length e path 0 xs ys hp
          rw [parseAt_arr, parseElems_idem e path 0 xs ys hok hp]
          simp [hlen2, hlen]
      · rename_i is hp
        split at h <;> simp at h
    | null => simp [parseAt] at h
    | bool b => simp [parseAt] at h
    | num n => simp [parseAt] at h
    | str s => simp [parseAt] at h
    | obj kvs => simp [parseAt] at h
  | .union2 a b, path, c, d, hok, h => by
    rw [idemOK] at hok
    simp only [Bool.and_eq_true] at hok
    obtain ⟨hpa, hib⟩ := hok
    rw [parseAt] at h
    split at h
    · rename_i y ha
      injection h with hyd
      subst hyd
      have hyc := prim_ok_eq a path c y hpa ha
      rw [← hyc] at ha
      rw [parseAt, ha]
    · rename_i ea ha
      split at h
      · rename_i y hb2
        injection h with hyd
        subst hyd
        rw [parseAt]
        cases had : parseAt a path y with
        | ok z => simp [had, prim_ok_eq a path y z hpa had]
        | error ea2 => simp [had, parseAt_idem b path c y hib hb2]
      · simp at h
  | .objOf fs, path, c, d, hok, h => by
    rw [idemOK] at hok
    simp only [Bool.and_eq_true] at hok
    obtain ⟨hfs, hdis⟩ := hok
    cases c with
    | obj kvs =>
      rw [parseAt] at h
      split at h
      · rename_i out hp
        injection h with hd
        subst hd
        rw [parseAt]
        simp [parseFields_idem fs path kvs out hfs hdis hp]
      · rename_i is hp
        simp at h
    | null => simp [parseAt] at h
    | bool b => simp [parseAt] at h
    | num n => simp [parseAt] at h
    | str s => simp [parseAt] at h
    | arr xs => simp [parseAt] at h
termination_by t path c d _ _ => (sizeOf t, 0)

/-- Element-wise idempotence for arrays. -/
theorem parseElems_idem : ∀ (e : SType) (path : List String) (i : Nat)
    (xs ys : List Json), idemOK e = true → parseElems e path i xs = .ok ys →
    parseElems e path i ys = .ok ys
  | e, path, i, [], ys, _, h => by
    rw [parseElems] at h
    injection h with hy
    subst hy
    rw [parseElems]
  | e, path, i, x :: xs, ys, hok, h => by
    rw [parseElems] at h
    split at h
    · rename_i y ys2 hp hr
      injection h with hys
      subst hys
      rw [parseElems, parseAt_idem e (path ++ [toString i]) x y hok hp,
        parseElems_idem e path (i + 1) xs ys2 hok hr]
    · simp at h
    · simp at h
    · simp at h
termination_by e path i xs ys _ _ => (sizeOf e, sizeOf xs)

/-- Field-wise idempotence for objects: re-validating a stripped output is
accepted and returns it unchanged. -/
theorem parseFields_idem : ∀ (fs : SFields) (path : List String)
    (kvs out : List (String × Json)),
    fieldsIdemOK fs = true → allDistinct fs.names = true →
    parseFields fs path kvs = .ok out → parseFields fs path out = .ok out
  | .nil, path, kvs, out, _, _, h => by
    rw [parseFields] at h
    injection h with hout
    subst hout
    rw [parseFields]
  | .cons name opt ty rest, path, kvs, out, hf, hd, h => by
    rw [fieldsIdemOK] at hf
    simp only [Bool.and_eq_true] at hf
    obtain ⟨hty, hrest⟩ := hf
    rw [SFields.names, allDistinct] at hd
    simp only [Bool.and_eq_true, Bool.not_eq_true'] at hd
    obtain ⟨hnotin, hdrest⟩ := hd
    have hnot : name ∉ rest.names := by simpa using hnotin
    rw [parseFields_cons] at h
    split at h
    · rename_i a b hcur hrec
      injection h with hout
      subst hout
      have hbkeys := parseFields_ok_keys rest path kvs b hrec
      rcases parseField1_ok_shape hcur with ha | ⟨y, ha⟩
      · subst ha
        simp only [List.nil_append]
        have hlk : b.lookup name = none :=
          lookup_eq_none_of_not_mem (fun hm => hnot (hbkeys name hm))
        have hopt : opt = true := by
          rw [parseField1] at hcur
          split at hcur
          · cases opt with
            | true => rfl
            | false => simp at hcur
          · split at hcur
            · simp at hcur
            · simp at hcur
        have hcur2 : parseField1 name opt ty path b = .ok [] := by
          simp [parseField1, hlk, hopt]
        rw [parseFields_cons, hcur2, parseFields_idem rest path kvs b hrest hdrest hrec]
        simp
      · subst ha
        simp only [List.singleton_append]
        have hcur_parse : parseAt ty (path ++ [name]) y = .ok y := by
          rw [parseField1] at hcur
          split at hcur
          · split at hcur
            · simp at hcur
            · simp at hcur
          · rename_i v heq
            split at hcur
            · rename_i y2 hpv
              simp at hcur
              subst hcur
              exact parseAt_idem _ _ _ _ hty hpv
            · simp at hcur
        have hlk : ((name, y) :: b).lookup name = some y := by simp [List.lookup]
        have hcur2 : parseField1 name opt ty path ((name, y) :: b) = .ok [(name, y)] := by
          simp [parseField1, hlk, hcur_parse]
        have hcongr : parseFields rest path ((name, y) :: b) = parseFields rest path b :=
          parseFields_congr rest path _ b (fun n hn => by
            have hnn : n ≠ name := fun e2 => hnot (e2 ▸ hn)
            simp [List.lookup, beq_eq_false_iff_ne.mpr hnn])
        rw [parseFields_cons, hcur2, hcongr, parseFields_idem rest path kvs b hrest hdrest hrec]
        simp
    · simp at h
    · simp at h
    · simp at h
termination_by fs path kvs out _ _ _ => (sizeOf fs, 0)
end

/-! ## Helper lemmas about the retry loops -/

/-- `zodValidate` accepts with value `d` exactly when the schema parse does. -/
theorem zodValidate_ok_iff {schema : SType} {c d : Json} :
    zodValidate schema c = { success := true, data := some d } ↔
    parseAt schema [] c = .ok d := by
  constructor
  · intro h
    rw [zodValidate] at h
    revert h
    cases hp : parseAt schema [] c with
    | ok d2 => intro h; simp at h; rw [h]
    | error is => intro h; simp at h
  · intro h
    rw [zodValidate, h]

/-- A successful `zodValidate` always carries `some` data, namely a parse
result. -/
theorem zodValidate_success_data {schema : SType} {c : Json}
    (h : (zodValidate schema c).success = true) :
    ∃ d, zodValidate schema c = { success := true, data := some d } := by
  rw [zodValidate] at h ⊢
  revert h
  cases hp : parseAt schema [] c with
  | ok d => intro _; exact ⟨d, rfl⟩
  | error is => intro h; simp at h

/-- Idempotence of the repository's validators (zod form): re-validating an
accepted value is accepted and returns it unchanged. -/
theorem zodValidate_idem {schema : SType} {c d : Json} (hok : idemOK schema = true)
    (h : zodValidate schema c = { success := true, data := some d }) :
    zodValidate schema d = { success := true, data := some d } :=
  zodValidate_ok_iff.mpr (parseAt_idem schema [] c d hok (zodValidate_ok_iff.mp h))

/-- One failing loop iteration unfolds to a recursive call on the next
attempt index carrying the recorded error, with the iteration's prompt
prepended to the trace. -/
theorem runRetryLoopAux_fail_step (validator : Json → ValidationResult)
    (base tail fallback exhaustMsg : String) (backend : Backend)
    (fuel i attempts : Nat) (lastErr : String)
    (hfail : attemptFailsB validator backend i = true) :
    runRetryLoopAux validator base tail fallback exhaustMsg backend (fuel + 1) i attempts lastErr =
      ((runRetryLoopAux validator base tail fallback exhaustMsg backend fuel (i + 1) (attempts + 1)
          (recordedErr validator fallback backend i)).1,
       loopPrompt base tail i lastErr ::
       (runRetryLoopAux validator base tail fallback exhaustMsg backend fuel (i + 1) (attempts + 1)
          (recordedErr validator fallback backend i)).2) := by
  rw [attemptFailsB] at hfail
  rw [runRetryLoopAux, recordedErr]
  split
  · rfl
  · rename_i text hb
    rw [hb] at hfail
    have hfail2 : (match extractJSON text with
      | none => true
      | some cfg => !(validator cfg).success) = true := hfail
    split
    · rfl
    · rename_i cfg he
      rw [he] at hfail2
      simp only [Bool.not_eq_true'] at hfail2
      rw [hfail2]
      simp

/-- The first prompt a (non-empty) loop sends is the one built from the
incoming feedback state. -/
theorem runRetryLoopAux_trace_head (validator : Json → ValidationResult)
    (base tail fallback exhaustMsg : String) (backend : Backend)
    (fuel i attempts : Nat) (lastErr : String) :
    (runRetryLoopAux validator base tail fallback exhaustMsg backend (fuel + 1) i attempts lastErr).2.head? =
      some (loopPrompt base tail i lastErr) := by
  rw [runRetryLoopAux]
  split
  · rfl
  · split
    · rfl
    · split
      · rfl
      · rfl

/-- A non-failing iteration returns successfully with the validated data and
`attempts + 1`, after exactly this one prompt. -/
theorem runRetryLoopAux_succeed_step (validator : Json → ValidationResult)
    (base tail fallback exhaustMsg : String) (backend : Backend)
    (fuel i attempts : Nat) (lastErr : String)
    (hok : attemptFailsB validator backend i = false) :
    ∃ cfg, (∃ text, backend i = .ok text ∧ extractJSON text = some cfg) ∧
      (validator cfg).success = true ∧
      runRetryLoopAux validator base tail fallback exhaustMsg backend (fuel + 1) i attempts lastErr =
        ({ success := true, config := (validator cfg).data, attempts := some (attempts + 1) },
         [loopPrompt base tail i lastErr]) := by
  rw [attemptFailsB] at hok
  cases hb : backend i with
  | error e =>
    rw [hb] at hok
    simp at hok
  | ok text =>
    rw [hb] at hok
    have hok2 : (match extractJSON text with
      | none => true
      | some cfg => !(validator cfg).success) = false := hok
    cases he : extractJSON text with
    | none => rw [he] at hok2; simp at hok2
    | some cfg =>
      rw [he] at hok2
      simp only [Bool.not_eq_false'] at hok2
      refine ⟨cfg, ⟨text, rfl, he⟩, hok2, ?_⟩
      rw [runRetryLoopAux]
      split
      · rename_i e hb2
        rw [hb] at hb2
        simp at hb2
      · rename_i text2 hb2
        rw [hb] at hb2
        injection hb2 with htext
        subst htext
        split
        · rename_i he2
          rw [he] at he2
          simp at he2
        · rename_i cfg2 he2
          rw [he] at he2
          injection he2 with hcfg
          subst hcfg
          rw [hok2]
          simp

/-- If every attempt within the budget fails, the loop runs all `fuel`
iterations, sends exactly `fuel` prompts, and returns the unsuccessful
response with attempt count `attempts + fuel` and the exhaustion error. -/
theorem runRetryLoopAux_allfail (validator : Json → ValidationResult)
    (base tail fallback exhaustMsg : String) (backend : Backend) :
    ∀ (fuel i attempts : Nat) (lastErr : String),
    (∀ k, i ≤ k → k < i + fuel → attemptFailsB validator backend k = true) →
    (runRetryLoopAux validator base tail fallback exhaustMsg backend fuel i attempts lastErr).1.success = false ∧
    (runRetryLoopAux validator base tail fallback exhaustMsg backend fuel i attempts lastErr).1.attempts = some (attempts + fuel) ∧
    (runRetryLoopAux validator base tail fallback exhaustMsg backend fuel i attempts lastErr).1.config = none ∧
    (runRetryLoopAux validator base tail fallback exhaustMsg backend fuel i attempts lastErr).1.error = some exhaustMsg ∧
    (runRetryLoopAux validator base tail fallback exhaustMsg backend fuel i attempts lastErr).2.length = fuel := by
  intro fuel
  induction fuel with
  | zero =>
    intro i attempts lastErr _
    simp [runRetryLoopAux]
  | succ f ih =>
    intro i attempts lastErr h
    have hfail : attemptFailsB validator backend i = true := h i (Nat.le_refl i) (by omega)
    rw [runRetryLoopAux_fail_step validator base tail fallback exhaustMsg backend f i attempts lastErr hfail]
    obtain ⟨h1, h2, h3, h4, h5⟩ := ih (i + 1) (attempts + 1)
      (recordedErr validator fallback backend i)
      (fun k hk1 hk2 => h k (by omega) (by omega))
    have harith : attempts + 1 + f = attempts + (f + 1) := by omega
    exact ⟨by simpa using h1, by rw [harith] at h2; simpa using h2,
      by simpa using h3, by simpa using h4, by simp [h5]⟩

/-- If attempts `i, i+1, …, i+k` all fail and the budget allows attempt
`k+1`, then the loop's `(k+1)`-st prompt exists and is built from the error
recorded by attempt `k`. -/
theorem runRetryLoopAux_trace_feedback (validator : Json → ValidationResult)
    (base tail fallback exhaustMsg : String) (backend : Backend) :
    ∀ (k fuel i attempts : Nat) (lastErr : String),
    k + 1 < fuel →
    (∀ j, j ≤ k → attemptFailsB validator backend (i + j) = true) →
    (runRetryLoopAux validator base tail fallback exhaustMsg backend fuel i attempts lastErr).2.get? (k + 1) =
      some (loopPrompt base tail (i + (k + 1)) (recordedErr validator fallback backend (i + k))) := by
  intro k
  induction k with
  | zero =>
    intro fuel i attempts lastErr hf hj
    obtain ⟨f1, rfl⟩ : ∃ f1, fuel = f1 + 1 := ⟨fuel - 1, by omega⟩
    obtain ⟨f2, rfl⟩ : ∃ f2, f1 = f2 + 1 := ⟨f1 - 1, by omega⟩
    rw [runRetryLoopAux_fail_step validator base tail fallback exhaustMsg backend (f2 + 1) i attempts
      lastErr (by simpa using hj 0 (Nat.le_refl 0))]
    have hhead := runRetryLoopAux_trace_head validator base tail fallback exhaustMsg backend f2
      (i + 1) (attempts + 1) (recordedErr validator fallback backend i)
    simp only [List.get?_cons_succ, List.get?_zero]
    rw [hhead]
    norm_num
  | succ k ih =>
    intro fuel i attempts lastErr hf hj
    obtain ⟨f1, rfl⟩ : ∃ f1, fuel = f1 + 1 := ⟨fuel - 1, by omega⟩
    rw [runRetryLoopAux_fail_step validator base tail fallback exhaustMsg backend f1 i attempts
      lastErr (by simpa using hj 0 (Nat.zero_le _))]
    simp only [List.get?_cons_succ]
    have hnext : ∀ j, j ≤ k → attemptFailsB validator backend ((i + 1) + j) = true := by
      intro j hjk
      have e : i + (j + 1) = (i + 1) + j := by omega
      exact e ▸ hj (j + 1) (by omega)
    have := ih f1 (i + 1) (attempts + 1) (recordedErr validator fallback backend i) (by omega) hnext
    have e1 : i + (k + 1 + 1) = (i + 1) + (k + 1) := by omega
    have e2 : i + (k + 1) = (i + 1) + k := by omega
    rw [e1, e2]
    exact this

/-- A successful loop result's config is the `data` of a validator-accepted
candidate. -/
theorem runRetryLoopAux_success_inv (validator : Json → ValidationResult)
    (base tail fallback exhaustMsg : String) (backend : Backend) :
    ∀ (fuel i attempts : Nat) (lastErr : String),
    (runRetryLoopAux validator base tail fallback exhaustMsg backend fuel i attempts lastErr).1.success = true →
    ∃ cfg, (validator cfg).success = true ∧
      (runRetryLoopAux validator base tail fallback exhaustMsg backend fuel i attempts lastErr).1.config =
        (validator cfg).data := by
  intro fuel
  induction fuel with
  | zero =>
    intro i attempts lastErr h
    simp [runRetryLoopAux] at h
  | succ f ih =>
    intro i attempts lastErr h
    by_cases hfail : attemptFailsB validator backend i = true
    · rw [runRetryLoopAux_fail_step validator base tail fallback exhaustMsg backend f i attempts
        lastErr hfail] at h ⊢
      obtain ⟨cfg, h1, h2⟩ := ih (i + 1) (attempts + 1) _ (by simpa using h)
      exact ⟨cfg, h1, by simpa using h2⟩
    · rw [Bool.not_eq_true] at hfail
      obtain ⟨cfg, _, hv, heq⟩ := runRetryLoopAux_succeed_step validator base tail fallback
        exhaustMsg backend f i attempts lastErr hfail
      rw [heq]
      exact ⟨cfg, hv, rfl⟩

/-- Characterization of an object-schema parse on an object candidate,
error case: the issues are exactly the ordered per-field harvest. -/
theorem parseAt_obj_error {fs : SFields} {kvs : List (String × Json)} {is : List ZIssue}
    (hp : parseAt (.objOf fs) [] (.obj kvs) = .error is) :
    is = fieldIssues [] kvs fs := by
  rw [parseAt] at hp
  have hp2 : (match parseFields fs [] kvs with
    | .ok out => Except.ok (Json.obj out)
    | .error is2 => (Except.error is2 : Except (List ZIssue) Json)) = .error is := hp
  cases hq : parseFields fs [] kvs with
  | ok out =>
    rw [hq] at hp2
    simp at hp2
  | error is2 =>
    rw [hq] at hp2
    have hp3 : (Except.error is2 : Except (List ZIssue) Json) = .error is := hp2
    injection hp3 with h3
    subst h3
    exact parseFields_error_eq fs [] kvs is2 hq

/-- Characterization of an object-schema parse on an object candidate,
success case: the output is an object produced by the field walk. -/
theorem parseAt_obj_ok {fs : SFields} {kvs : List (String × Json)} {d : Json}
    (hp : parseAt (.objOf fs) [] (.obj kvs) = .ok d) :
    ∃ out, parseFields fs [] kvs = .ok out ∧ d = .obj out := by
  rw [parseAt] at hp
  have hp2 : (match parseFields fs [] kvs with
    | .ok out => Except.ok (Json.obj out)
    | .error is2 => (Except.error is2 : Except (List ZIssue) Json)) = .ok d := hp
  cases hq : parseFields fs [] kvs with
  | ok out =>
    rw [hq] at hp2
    have hp3 : (Except.ok (Json.obj out) : Except (List ZIssue) Json) = .ok d := hp2
    injection hp3 with h3
    exact ⟨out, rfl, h3.symm⟩
  | error is2 =>
    rw [hq] at hp2
    simp at hp2

/-- The recorded error text of a failed attempt appears verbatim inside the
next prompt (for the empty error the JS truthiness check skips the feedback
block, and the empty string is trivially an infix). -/
theorem err_toList_infix_loopPrompt (base tail err : String) (j : Nat) (hj : 0 < j) :
    err.toList <:+: (loopPrompt base tail j err).toList := by
  rw [loopPrompt]
  by_cases he : err = ""
  · subst he
    exact ⟨[], (base ++ if j > 0 ∧ "" ≠ "" then feedbackBlock "" tail else "").toList, by simp⟩
  · rw [if_pos ⟨hj, he⟩, feedbackBlock]
    refine ⟨base.toList ++ "\n\nPREVIOUS ATTEMPT FAILED WITH ERRORS:\n".toList, tail.toList, ?_⟩
    simp only [String.toList]
    simp [String.data_append, List.append_assoc]

/-- The `for (const provider in generatedConfig)` walk of the code
controller accepts exactly when every provider entry is a source string
that Babel compiles. -/
theorem checkProviders_accept_iff (babel : BabelOracle) :
    ∀ kvs : List (String × Json),
    (checkProviders babel kvs).1 = true ↔
      ∀ p ∈ kvs, ∃ s, p.2 = Json.str s ∧ babel s = .ok ()
  | [] => by simp [checkProviders]
  | (provider, code) :: rest => by
    cases code with
    | str s =>
      rw [checkProviders]
      cases hb : babel s with
      | ok u =>
        simp [hb, checkProviders_accept_iff babel rest, List.forall_mem_cons]
      | error m =>
        simp [hb, List.forall_mem_cons]
    | null => simp [checkProviders, List.forall_mem_cons]
    | bool b => simp [checkProviders, List.forall_mem_cons]
    | num n => simp [checkProviders, List.forall_mem_cons]
    | arr xs => simp [checkProviders, List.forall_mem_cons]
    | obj kvs2 => simp [checkProviders, List.forall_mem_cons]

/-- When the providers before `provider` all compile and `provider`'s source
fails with diagnostic `msg`, the walk stops there and reports
`Provider <id>: <diagnostic>`. -/
theorem checkProviders_first_fail (babel : BabelOracle) (provider s msg : String)
    (rest : List (String × Json)) (hb : babel s = .error msg) :
    ∀ pre : List (String × Json),
    (∀ q ∈ pre, ∃ t, q.2 = Json.str t ∧ babel t = .ok ()) →
    checkProviders babel (pre ++ (provider, Json.str s) :: rest) =
      (false, "Provider " ++ provider ++ ": " ++ msg)
  | [], _ => by
    rw [List.nil_append, checkProviders, hb]
  | q :: pre, hpre => by
    obtain ⟨t, ht, hbt⟩ := hpre q (List.mem_cons_self q _)
    obtain ⟨qp, qc⟩ := q
    simp only at ht
    subst ht
    rw [List.cons_append, checkProviders, hbt]
    exact checkProviders_first_fail babel provider s msg rest hb pre
      (fun q2 hq2 => hpre q2 (List.mem_cons_of_mem _ hq2))

/-! ## Claim theorems -/

/-- C3: the spec (and the validator module's own prompt RULES text) say a
select candidate whose `value` is not among `options` is `Rejected` citing
`value`; the zod schema has no such cross-field refinement, so the code
ACCEPTS the spec's own scenario input `{options:["a","b"], value:"c"}`.
This theorem evaluates the validator at that failing input. -/
theorem c3_select_value_outside_options_is_accepted :
    validateSelectConfig (Json.obj [("options", Json.arr [Json.str "a", Json.str "b"]),
        ("value", Json.str "c")]) =
      { success := true,
        data := some (Json.obj [("options", Json.arr [Json.str "a", Json.str "b"]),
          ("value", Json.str "c")]) } := rfl

/-- C1: when every attempt fails (backend throw, extraction throw, or
validation rejection on each iteration), the per-kind loop of
`src/services/aiService.ts` performs exactly `MAX_RETRIES = 5` attempts
(5 prompts sent, never more or fewer) and returns an unsuccessful result
with `attempts = 5`; the generic engine's `generateWithValidation` does the
same with its ceiling 3, for every validator it is instantiated with. -/
theorem c1_retry_budget_exact :
    (∀ (base : String) (backend : Backend),
      (∀ k, k < 5 → attemptFailsB validateSelectConfig backend k = true) →
      (generateSelectConfig base backend).1.success = false ∧
      (generateSelectConfig base backend).1.attempts = some 5 ∧
      (generateSelectConfig base backend).2.length = 5) ∧
    (∀ (validator : Json → ValidationResult) (base : String) (backend : Backend),
      (∀ k, k < 3 → attemptFailsB validator backend k = true) →
      (generateWithValidation validator base backend).1.success = false ∧
      (generateWithValidation validator base backend).1.attempts = some 3 ∧
      (generateWithValidation validator base backend).2.length = 3) := by
  constructor
  · intro base backend hfail
    have h := runRetryLoopAux_allfail validateSelectConfig base tailShort
      "Unknown validation error" aiExhaustMsg backend 5 0 0 ""
      (fun k _ hk2 => hfail k (by omega))
    exact ⟨h.1, h.2.1, h.2.2.2.2⟩
  · intro validator base backend hfail
    have h := runRetryLoopAux_allfail validator base tailShort
      "Validation failed" "Retries exhausted" backend 3 0 0 ""
      (fun k _ hk2 => hfail k (by omega))
    exact ⟨h.1, h.2.1, h.2.2.2.2⟩

/-- Witness for C1 at a backend that always throws. -/
theorem c1_retry_budget_exact_witness :
    (generateSelectConfig "" (fun _ => Except.error "backend unavailable")).1.attempts = some 5 ∧
    (generateWithValidation validateSelectConfig "" (fun _ => Except.error "backend unavailable")).1.attempts = some 3 :=
  ⟨(c1_retry_budget_exact.1 "" (fun _ => Except.error "backend unavailable") (by decide)).2.1,
   (c1_retry_budget_exact.2 validateSelectConfig "" (fun _ => Except.error "backend unavailable") (by decide)).2.1⟩

/-- C5: when attempts `0..k` fail and the budget is not exhausted, attempt
`k+1` is made (its prompt exists in the interaction trace) and that prompt
contains, verbatim, the error text recorded from attempt `k` — the joined
field-error list, or the thrown error's message (`recordedErr`).  Holds for
both retry loops, which are instances of `runRetryLoop`. -/
theorem c5_failed_attempt_feeds_next_prompt :
    ∀ (validator : Json → ValidationResult) (base tail fallback exhaustMsg : String)
      (backend : Backend) (n k : Nat),
    k + 1 < n →
    (∀ j, j ≤ k → attemptFailsB validator backend j = true) →
    ∃ p, (runRetryLoop validator base tail fallback exhaustMsg backend n).2.get? (k + 1) = some p ∧
      (recordedErr validator fallback backend k).toList <:+: p.toList := by
  intro validator base tail fallback exhaustMsg backend n k hn hfail
  have h := runRetryLoopAux_trace_feedback validator base tail fallback exhaustMsg backend k n 0 0 ""
    hn (fun j hj => by simpa using hfail j hj)
  refine ⟨loopPrompt base tail (0 + (k + 1)) (recordedErr validator fallback backend (0 + k)),
    h, ?_⟩
  have e : 0 + k = k := by omega
  have e1 : 0 + (k + 1) = k + 1 := by omega
  rw [e, e1]
  exact err_toList_infix_loopPrompt base tail _ (k + 1) (by omega)

/-- Witness for C5: the second prompt carries the first attempt's thrown
backend error. -/
theorem c5_failed_attempt_feeds_next_prompt_witness :
    ∃ p, (runRetryLoop validateSelectConfig "B" tailShort "Unknown validation error" aiExhaustMsg
        (fun _ => Except.error "quota exceeded") 5).2.get? (0 + 1) = some p ∧
      ("quota exceeded").toList <:+: p.toList :=
  c5_failed_attempt_feeds_next_prompt validateSelectConfig "B" tailShort
    "Unknown validation error" aiExhaustMsg (fun _ => Except.error "quota exceeded") 5 0
    (by decide) (by decide)

/-- C6: a `componentName` outside the supported set routes to the default
branch in both routers: the response reports the kind as unsupported, no
backend call is made and no prompt is built (empty interaction trace), and
no `attempts` field is set.  (In the generic engine, a missing/empty name or
`'playground'` routes to the playground branch instead, so those are
excluded there.) -/
theorem c6_unsupported_component_no_backend_call :
    (∀ (base : String) (backend : Backend) (name : String),
      name ∉ supportedKinds →
      aiGenerateConfig base backend name =
        ({ success := false,
           error := some ("Component \"" ++ name ++ "\" is not supported") }, [])) ∧
    (∀ (base pPrompt : String) (backend : Backend) (name : String),
      name ∉ supportedKinds → name ≠ "playground" → name ≠ "" →
      gcGenerateConfig base pPrompt backend (some name) =
        ({ success := false,
           error := some ("Component \"" ++ name ++ "\" is not supported") }, [])) := by
  constructor
  · intro base backend name hmem
    simp only [supportedKinds, List.mem_cons, List.not_mem_nil, or_false] at hmem
    push_neg at hmem
    obtain ⟨h1, h2, h3, h4, h5, h6, h7, h8, h9, h10⟩ := hmem
    simp [aiGenerateConfig, h1, h2, h3, h4, h5, h6, h7, h8, h9, h10]
  · intro base pPrompt backend name hmem hpg hempty
    simp only [supportedKinds, List.mem_cons, List.not_mem_nil, or_false] at hmem
    push_neg at hmem
    obtain ⟨h1, h2, h3, h4, h5, h6, h7, h8, h9, h10⟩ := hmem
    simp [gcGenerateConfig, h1, h2, h3, h4, h5, h6, h7, h8, h9, h10, hpg, hempty]

/-- Witness for C6 at the unsupported name `"carousel"`. -/
theorem c6_unsupported_component_no_backend_call_witness :
    aiGenerateConfig "" (fun _ => Except.error "e") "carousel" =
      ({ success := false, error := some "Component \"carousel\" is not supported" }, []) ∧
    gcGenerateConfig "" "" (fun _ => Except.error "e") (some "carousel") =
      ({ success := false, error := some "Component \"carousel\" is not supported" }, []) :=
  ⟨c6_unsupported_component_no_backend_call.1 "" (fun _ => Except.error "e") "carousel" (by decide),
   c6_unsupported_component_no_backend_call.2 "" "" (fun _ => Except.error "e") "carousel"
     (by decide) (by decide) (by decide)⟩

/-- `parseAt` on an object schema and object candidate, written through
`parseFields`. -/
theorem parseAt_obj (fs : SFields) (path : List String) (kvs : List (String × Json)) :
    parseAt (.objOf fs) path (.obj kvs) =
      match parseFields fs path kvs with
      | .ok out => .ok (.obj out)
      | .error is => .error is := rfl

/-- C7: validators are idempotent on accepted values — re-validating the
`data` of an `Accepted` outcome is `Accepted` with the same data — and
consequently the config inside every successful generation result
re-validates as `Accepted` under the validator used during the loop.
Stated for the two validators the claim cites (select and progress), both
for the aiService 5-attempt loop and the generic 3-attempt loop. -/
theorem c7_validators_idempotent_and_success_revalidates :
    (∀ c d : Json, validateSelectConfig c = { success := true, data := some d } →
      validateSelectConfig d = { success := true, data := some d }) ∧
    (∀ c d : Json, validateProgressConfig c = { success := true, data := some d } →
      validateProgressConfig d = { success := true, data := some d }) ∧
    (∀ (base : String) (backend : Backend),
      (generateSelectConfig base backend).1.success = true →
      ∃ d, (generateSelectConfig base backend).1.config = some d ∧
        validateSelectConfig d = { success := true, data := some d }) ∧
    (∀ (base : String) (backend : Backend),
      (generateWithValidation validateProgressConfig base backend).1.success = true →
      ∃ d, (generateWithValidation validateProgressConfig base backend).1.config = some d ∧
        validateProgressConfig d = { success := true, data := some d }) := by
  have hsel : idemOK SelectConfigSchema = true := rfl
  have hprog : idemOK ProgressConfigSchema = true := rfl
  refine ⟨fun c d h => zodValidate_idem hsel h, fun c d h => zodValidate_idem hprog h, ?_, ?_⟩
  · intro base backend h
    obtain ⟨cfg, hv, hc⟩ := runRetryLoopAux_success_inv validateSelectConfig base tailShort
      "Unknown validation error" aiExhaustMsg backend 5 0 0 "" h
    obtain ⟨d, heq⟩ := zodValidate_success_data
      (show (zodValidate SelectConfigSchema cfg).success = true from hv)
    have hdata : (validateSelectConfig cfg).data = some d := by
      rw [show validateSelectConfig cfg = { success := true, data := some d } from heq]
    exact ⟨d, hc.trans hdata, zodValidate_idem hsel heq⟩
  · intro base backend h
    obtain ⟨cfg, hv, hc⟩ := runRetryLoopAux_success_inv validateProgressConfig base tailShort
      "Validation failed" "Retries exhausted" backend 3 0 0 "" h
    obtain ⟨d, heq⟩ := zodValidate_success_data
      (show (zodValidate ProgressConfigSchema cfg).success = true from hv)
    have hdata : (validateProgressConfig cfg).data = some d := by
      rw [show validateProgressConfig cfg = { success := true, data := some d } from heq]
    exact ⟨d, hc.trans hdata, zodValidate_idem hprog heq⟩

/-- Witness for C7: a concrete accepted select config re-validates, and a
backend returning a valid select config on the first attempt produces a
result whose config re-validates. -/
theorem c7_validators_idempotent_and_success_revalidates_witness :
    validateSelectConfig (Json.obj [("options", Json.arr [Json.str "a"]), ("value", Json.str "a")]) =
      { success := true,
        data := some (Json.obj [("options", Json.arr [Json.str "a"]), ("value", Json.str "a")]) } ∧
    (∃ d, (generateSelectConfig "B"
        (fun _ => Except.ok "\x7b\"options\":[\"a\"],\"value\":\"a\"\x7d")).1.config = some d ∧
      validateSelectConfig d = { success := true, data := some d }) :=
  ⟨c7_validators_idempotent_and_success_revalidates.1
      (Json.obj [("options", Json.arr [Json.str "a"]), ("value", Json.str "a")])
      (Json.obj [("options", Json.arr [Json.str "a"]), ("value", Json.str "a")]) rfl,
   c7_validators_idempotent_and_success_revalidates.2.2.1 "B"
      (fun _ => Except.ok "\x7b\"options\":[\"a\"],\"value\":\"a\"\x7d") rfl⟩

/-- C9: a rejected candidate's `details` lists every violated field as its
own `fieldPath: message` entries, concatenated in schema source order
(`fieldIssues` walks the declared fields in order, one issue block per
field — no collapsing), and a non-object top-level input produces the same
`Rejected` record shape (not a thrown exception), with the single type
issue at the empty path. -/
theorem c9_rejection_shape_and_order :
    (∀ c : Json, (∀ kvs, c ≠ Json.obj kvs) →
      validateSelectConfig c =
        { success := false, error := some "Configuration validation failed",
          details := some [": Expected object, received " ++ c.typeName] } ∧
      validateProgressConfig c =
        { success := false, error := some "Configuration validation failed",
          details := some [": Expected object, received " ++ c.typeName] }) ∧
    (∀ kvs, (validateSelectConfig (Json.obj kvs)).success = false →
      (validateSelectConfig (Json.obj kvs)).details =
        some ((fieldIssues [] kvs selectFields).map
          (fun i => String.intercalate "." i.1 ++ ": " ++ i.2))) ∧
    (∀ kvs, (validateProgressConfig (Json.obj kvs)).success = false →
      (validateProgressConfig (Json.obj kvs)).details =
        some ((fieldIssues [] kvs progressFields).map
          (fun i => String.intercalate "." i.1 ++ ": " ++ i.2))) := by
  refine ⟨?_, ?_, ?_⟩
  · intro c hc
    cases c with
    | obj kvs => exact absurd rfl (hc kvs)
    | null => exact ⟨rfl, rfl⟩
    | bool b => exact ⟨rfl, rfl⟩
    | num n => exact ⟨rfl, rfl⟩
    | str s => exact ⟨rfl, rfl⟩
    | arr xs => exact ⟨rfl, rfl⟩
  · intro kvs h
    cases hp : parseAt SelectConfigSchema [] (Json.obj kvs) with
    | ok d => simp [validateSelectConfig, zodValidate, hp] at h
    | error is =>
      have his : is = fieldIssues [] kvs selectFields :=
        parseAt_obj_error
          (show parseAt (.objOf selectFields) [] (Json.obj kvs) = .error is from hp)
      simp [validateSelectConfig, zodValidate, hp, his]
  · intro kvs h
    cases hp : parseAt ProgressConfigSchema [] (Json.obj kvs) with
    | ok d => simp [validateProgressConfig, zodValidate, hp] at h
    | error is =>
      have his : is = fieldIssues [] kvs progressFields :=
        parseAt_obj_error
          (show parseAt (.objOf progressFields) [] (Json.obj kvs) = .error is from hp)
      simp [validateProgressConfig, zodValidate, hp, his]

/-- Witness for C9: a string top-level input, and a two-violation progress
candidate whose details list both fields separately, in schema order. -/
theorem c9_rejection_shape_and_order_witness :
    validateProgressConfig (Json.str "oops") =
      { success := false, error := some "Configuration validation failed",
        details := some [": Expected object, received string"] } ∧
    (validateProgressConfig (Json.obj [("value", Json.num (-2)), ("size", Json.str "tiny")])).details =
      some ((fieldIssues [] [("value", Json.num (-2)), ("size", Json.str "tiny")] progressFields).map
        (fun i => String.intercalate "." i.1 ++ ": " ++ i.2)) :=
  ⟨(c9_rejection_shape_and_order.1 (Json.str "oops") (fun kvs h => by cases h)).2,
   c9_rejection_shape_and_order.2.2 [("value", Json.num (-2)), ("size", Json.str "tiny")] rfl⟩

/-- C10: the validators silently strip unknown keys — appending keys not
declared in the schema to an accepted candidate leaves acceptance and the
returned data unchanged (so the extra keys are removed from the output),
and any accepted data is an object whose keys all come from the declared
schema fields.  Stated for the two cited validators. -/
theorem c10_unknown_keys_silently_stripped :
    (∀ (kvs extras : List (String × Json)) (d : Json),
      (∀ p ∈ extras, p.1 ∉ selectFields.names) →
      validateSelectConfig (Json.obj kvs) = { success := true, data := some d } →
      validateSelectConfig (Json.obj (kvs ++ extras)) = { success := true, data := some d }) ∧
    (∀ (kvs : List (String × Json)) (d : Json),
      validateSelectConfig (Json.obj kvs) = { success := true, data := some d } →
      ∃ out, d = Json.obj out ∧ ∀ k ∈ out.map Prod.fst, k ∈ selectFields.names) ∧
    (∀ (kvs extras : List (String × Json)) (d : Json),
      (∀ p ∈ extras, p.1 ∉ progressFields.names) →
      validateProgressConfig (Json.obj kvs) = { success := true, data := some d } →
      validateProgressConfig (Json.obj (kvs ++ extras)) = { success := true, data := some d }) ∧
    (∀ (kvs : List (String × Json)) (d : Json),
      validateProgressConfig (Json.obj kvs) = { success := true, data := some d } →
      ∃ out, d = Json.obj out ∧ ∀ k ∈ out.map Prod.fst, k ∈ progressFields.names) := by
  refine ⟨?_, ?_, ?_, ?_⟩
  · intro kvs extras d hex h
    have hp := (@zodValidate_ok_iff SelectConfigSchema (Json.obj kvs) d).mp h
    obtain ⟨out, hq, hd⟩ := parseAt_obj_ok hp
    have hlook : ∀ n ∈ selectFields.names, (kvs ++ extras).lookup n = kvs.lookup n := by
      intro n hn
      apply lookup_append_of_not_mem
      intro hmem
      obtain ⟨p, hp2, hp3⟩ := List.mem_map.mp hmem
      exact hex p hp2 (hp3 ▸ hn)
    have hq2 : parseFields selectFields [] (kvs ++ extras) = .ok out := by
      rw [parseFields_congr selectFields [] (kvs ++ extras) kvs hlook]
      exact hq
    apply (@zodValidate_ok_iff SelectConfigSchema _ _).mpr
    show parseAt (.objOf selectFields) [] (Json.obj (kvs ++ extras)) = .ok d
    rw [parseAt_obj, hq2, hd]
  · intro kvs d h
    have hp := (@zodValidate_ok_iff SelectConfigSchema (Json.obj kvs) d).mp h
    obtain ⟨out, hq, hd⟩ := parseAt_obj_ok hp
    exact ⟨out, hd, parseFields_ok_keys selectFields [] kvs out hq⟩
  · intro kvs extras d hex h
    have hp := (@zodValidate_ok_iff ProgressConfigSchema (Json.obj kvs) d).mp h
    obtain ⟨out, hq, hd⟩ := parseAt_obj_ok hp
    have hlook : ∀ n ∈ progressFields.names, (kvs ++ extras).lookup n = kvs.lookup n := by
      intro n hn
      apply lookup_append_of_not_mem
      intro hmem
      obtain ⟨p, hp2, hp3⟩ := List.mem_map.mp hmem
      exact hex p hp2 (hp3 ▸ hn)
    have hq2 : parseFields progressFields [] (kvs ++ extras) = .ok out := by
      rw [parseFields_congr progressFields [] (kvs ++ extras) kvs hlook]
      exact hq
    apply (@zodValidate_ok_iff ProgressConfigSchema _ _).mpr
    show parseAt (.objOf progressFields) [] (Json.obj (kvs ++ extras)) = .ok d
    rw [parseAt_obj, hq2, hd]
  · intro kvs d h
    have hp := (@zodValidate_ok_iff ProgressConfigSchema (Json.obj kvs) d).mp h
    obtain ⟨out, hq, hd⟩ := parseAt_obj_ok hp
    exact ⟨out, hd, parseFields_ok_keys progressFields [] kvs out hq⟩

/-- Witness for C10: a junk key appended to an accepted select config is
dropped without affecting the accepted data. -/
theorem c10_unknown_keys_silently_stripped_witness :
    validateSelectConfig (Json.obj ([("options", Json.arr [Json.str "a"]), ("value", Json.str "a")] ++
        [("junk", Json.num 3)])) =
      { success := true,
        data := some (Json.obj [("options", Json.arr [Json.str "a"]), ("value", Json.str "a")]) } :=
  c10_unknown_keys_silently_stripped.1
    [("options", Json.arr [Json.str "a"]), ("value", Json.str "a")]
    [("junk", Json.num 3)]
    (Json.obj [("options", Json.arr [Json.str "a"]), ("value", Json.str "a")])
    (by decide) rfl

/-- C2: a playground attempt is accepted iff every provider entry of the
generated config is a source string that Babel compiles (no per-field
schema validation is involved anywhere in the acceptance condition); on the
first failing provider the walk stops and the retry feedback is exactly
`Provider <id>: <compiler diagnostic>`; and an all-compiling first attempt
is answered 200 with the generated config and one attempt. -/
theorem c2_playground_accept_iff_all_compile :
    (∀ (babel : BabelOracle) (kvs : List (String × Json)),
      (checkProviders babel kvs).1 = true ↔
        ∀ p ∈ kvs, ∃ s, p.2 = Json.str s ∧ babel s = Except.ok ()) ∧
    (∀ (babel : BabelOracle) (pre : List (String × Json)) (provider s msg : String)
        (rest : List (String × Json)),
      (∀ q ∈ pre, ∃ t, q.2 = Json.str t ∧ babel t = Except.ok ()) →
      babel s = Except.error msg →
      checkProviders babel (pre ++ (provider, Json.str s) :: rest) =
        (false, "Provider " ++ provider ++ ": " ++ msg)) ∧
    (∀ (babel : BabelOracle) (backend : Backend) (userPrompt : String)
        (kvs : List (String × Json)),
      playgroundGenerate backend 0 = { success := true, config := some (Json.obj kvs) } →
      (checkProviders babel kvs).1 = true →
      (codeControllerLoop babel backend userPrompt).1 =
        { status := 200, success := true, config := some (Json.obj kvs),
          attempts := some 1 }) := by
  refine ⟨checkProviders_accept_iff,
    fun babel pre provider s msg rest hpre hb =>
      checkProviders_first_fail babel provider s msg rest hb pre hpre, ?_⟩
  intro babel backend userPrompt kvs hgen hval
  rw [codeControllerLoop]
  rw [show maxCodeRetries = 4 + 1 from rfl]
  rw [codeControllerLoopAux]
  rw [hgen]
  simp [attemptValid, hval]

/-- Witness for C2: a failing provider is reported by name with its
diagnostic, and an all-compiling generation is accepted on attempt 1. -/
theorem c2_playground_accept_iff_all_compile_witness :
    checkProviders (fun s => if s = "good" then Except.ok () else Except.error "SyntaxError: bad")
        ([("mui", Json.str "good")] ++ ("chakra", Json.str "broken") :: []) =
      (false, "Provider chakra: SyntaxError: bad") ∧
    (codeControllerLoop (fun s => if s = "good" then Except.ok () else Except.error "SyntaxError: bad")
        (fun _ => Except.ok "\x7b\"mui\": \"good\"\x7d") "make a button").1 =
      { status := 200, success := true, config := some (Json.obj [("mui", Json.str "good")]),
        attempts := some 1 } :=
  ⟨c2_playground_accept_iff_all_compile.2.1
      (fun s => if s = "good" then Except.ok () else Except.error "SyntaxError: bad")
      [("mui", Json.str "good")] "chakra" "broken" "SyntaxError: bad" []
      (by intro q hq; simp at hq; subst hq; exact ⟨"good", rfl, rfl⟩) rfl,
   c2_playground_accept_iff_all_compile.2.2
      (fun s => if s = "good" then Except.ok () else Except.error "SyntaxError: bad")
      (fun _ => Except.ok "\x7b\"mui\": \"good\"\x7d") "make a button"
      [("mui", Json.str "good")] rfl rfl⟩

/-- A syntactically well-formed source that uses the `Rating` component —
which is not in the mui registry entry's closed `allowedComponents` list. -/
def c4SampleCode : String :=
  "import \x7b Rating \x7d from \"@mui/material\"; export default () => <Rating />"

/-- A Babel oracle that compiles exactly the sample source (as the real
Babel does: the source is well-formed JSX). -/
def c4Babel : BabelOracle :=
  fun s => if s = c4SampleCode then Except.ok () else Except.error "SyntaxError: unexpected token"

/-- A backend whose first response is the playground JSON carrying the
sample source for mui. -/
def c4Backend : Backend :=
  fun _ => Except.ok
    ("\x7b\"mui\": \"import \x7b Rating \x7d from \\\"@mui/material\\\"; export default () => <Rating />\"\x7d")

/-- C4 counterexample: `Rating` is outside mui's closed `allowedComponents`
list, the sample source uses it, and the playground attempt nonetheless
returns it as an accepted 200 result — the claimed downstream rejection
does not exist. -/
theorem c4_counterexample_disallowed_component_accepted :
    ("Rating" ∈ muiEntry.allowedComponents → False) ∧
    "Rating".toList <:+: c4SampleCode.toList ∧
    (codeControllerLoop c4Babel c4Backend "add a rating widget").1 =
      { status := 200, success := true, config := some (Json.obj [("mui", Json.str c4SampleCode)]),
        attempts := some 1 } :=
  ⟨by decide, by decide, rfl⟩

/-- C4 (amended): playground validation never consults the provider
registry — `validateCode` ignores its `provider` argument entirely, and an
attempt is accepted whenever every provider's source compiles, with no
condition on the component names used.  The `allowedComponents` lists only
enrich the generation prompt. -/
theorem c4_allowed_components_not_enforced :
    (∀ (babel : BabelOracle) (code : String) (p q : Option String),
      validateCode babel code p = validateCode babel code q) ∧
    (∀ (babel : BabelOracle) (kvs : List (String × Json)),
      (∀ pr ∈ kvs, ∃ s, pr.2 = Json.str s ∧ babel s = Except.ok ()) →
      (checkProviders babel kvs).1 = true) := by
  constructor
  · intro babel code p q
    cases hb : babel code <;> simp [validateCode, hb]
  · intro babel kvs h
    exact (checkProviders_accept_iff babel kvs).mpr h

/-- Witness for the amended C4 at the sample source. -/
theorem c4_allowed_components_not_enforced_witness :
    validateCode c4Babel c4SampleCode (some "mui") = validateCode c4Babel c4SampleCode none ∧
    (checkProviders c4Babel [("mui", Json.str c4SampleCode)]).1 = true :=
  ⟨c4_allowed_components_not_enforced.1 c4Babel c4SampleCode (some "mui") none,
   c4_allowed_components_not_enforced.2 c4Babel [("mui", Json.str c4SampleCode)]
     (by intro pr hpr; simp at hpr; subst hpr; exact ⟨c4SampleCode, rfl, by simp [c4Babel]⟩)⟩

/-- Dropping a (false-on-`c`) `dropWhile` distributes over an append whose
second part starts with `c`. -/
theorem dropWhile_append_cons (f : Char → Bool) (c : Char) (hc : f c = false) :
    ∀ (p r : List Char), (p ++ c :: r).dropWhile f = p.dropWhile f ++ c :: r
  | [], r => by simp [List.dropWhile_cons, hc]
  | a :: p, r => by
    by_cases ha : f a = true
    · simp [List.dropWhile_cons, ha, dropWhile_append_cons f c hc p r]
    · simp [List.dropWhile_cons, ha]

/-- Membership survives `dropWhile`. -/
theorem mem_dropWhile_imp (f : Char → Bool) :
    ∀ (l : List Char) (a : Char), a ∈ l.dropWhile f → a ∈ l
  | [], a, h => by simp [List.dropWhile] at h
  | b :: l, a, h => by
    rw [List.dropWhile_cons] at h
    by_cases hb : f b = true
    · simp only [hb, if_true] at h
      exact List.mem_cons_of_mem _ (mem_dropWhile_imp f l a h)
    · simp only [hb, if_false] at h
      exact h

/-- `findIdx?` over an append whose first part falsifies the predicate and
whose second part starts with a satisfying element finds exactly the length
of the first part (shifted by the accumulator). -/
theorem findIdx_append_cons (f : Char → Bool) (c : Char) (hc : f c = true) :
    ∀ (p r : List Char) (i : Nat), (∀ a ∈ p, f a = false) →
    List.findIdx? f (p ++ c :: r) i = some (i + p.length)
  | [], r, i, _ => by simp [List.findIdx?_cons, hc]
  | a :: p, r, i, hp => by
    have ha : f a = false := hp a (by simp)
    have hrec := findIdx_append_cons f c hc p r (i + 1) (fun x hx => hp x (by simp [hx]))
    rw [List.cons_append, List.findIdx?_cons, ha]
    simp only [Bool.false_eq_true, if_false, hrec, List.length_cons, Option.some.injEq]
    omega

/-- `String.prototype.trim` on a text of the form prose, brace-delimited
block, prose: only the outer prose is trimmed. -/
theorem jsTrimL_decompose (preL mid sufL : List Char) :
    jsTrimL (preL ++ '\x7b' :: (mid ++ '\x7d' :: sufL)) =
      preL.dropWhile jsWs ++ '\x7b' :: (mid ++ '\x7d' :: (sufL.reverse.dropWhile jsWs).reverse) := by
  rw [jsTrimL, dropWhile_append_cons jsWs '\x7b' (by decide) preL _]
  have hrev : (preL.dropWhile jsWs ++ '\x7b' :: (mid ++ '\x7d' :: sufL)).reverse =
      sufL.reverse ++ '\x7d' :: (mid.reverse ++ '\x7b' :: (preL.dropWhile jsWs).reverse) := by
    simp
  rw [hrev, dropWhile_append_cons jsWs '\x7d' (by decide) sufL.reverse _]
  simp

/-- When the text left of the first opening brace contains no opening brace
and the text right of the last closing brace contains no closing brace, the
candidate-selection step of `extractJSON` returns exactly the brace-delimited
block. -/
theorem extractCandidate_between_braces (p' q' mid : List Char)
    (hp : ∀ a ∈ p', a ≠ '\x7b') (hq : ∀ a ∈ q', a ≠ '\x7d') :
    extractCandidate (p' ++ '\x7b' :: (mid ++ '\x7d' :: q')) = '\x7b' :: (mid ++ ['\x7d']) := by
  have hf : List.findIdx? (fun c => c = '\x7b') (p' ++ '\x7b' :: (mid ++ '\x7d' :: q')) 0 =
      some p'.length := by
    simpa using findIdx_append_cons (fun c => c = '\x7b') '\x7b' (by decide) p'
      (mid ++ '\x7d' :: q') 0 (fun a ha => by simp [hp a ha])
  have hrev : (p' ++ '\x7b' :: (mid ++ '\x7d' :: q')).reverse =
      q'.reverse ++ '\x7d' :: (mid.reverse ++ '\x7b' :: p'.reverse) := by simp
  have hl : List.findIdx? (fun c => c = '\x7d')
      ((p' ++ '\x7b' :: (mid ++ '\x7d' :: q')).reverse) 0 = some q'.length := by
    rw [hrev]
    simpa using findIdx_append_cons (fun c => c = '\x7d') '\x7d' (by decide) q'.reverse
      (mid.reverse ++ '\x7b' :: p'.reverse) 0
      (fun a ha => by simp [hq a (List.mem_reverse.mp ha)])
  have hlen : (p' ++ '\x7b' :: (mid ++ '\x7d' :: q')).length =
      p'.length + mid.length + q'.length + 2 := by
    simp only [List.length_append, List.length_cons]
    omega
  simp only [extractCandidate, hf, hl, Option.map_some', hlen]
  rw [if_pos (by omega)]
  rw [List.drop_left]
  rw [show p'.length + mid.length + q'.length + 2 - 1 - q'.length + 1 - p'.length =
        mid.length + 2 from by omega]
  rw [show mid.length + 2 = (mid.length + 1) + 1 from rfl, List.take_succ_cons]
  congr 1
  rw [show mid ++ '\x7d' :: q' = (mid ++ ['\x7d']) ++ q' from by simp]
  rw [show mid.length + 1 = (mid ++ ['\x7d']).length from by simp]
  exact List.take_left _ _

/-- C8 counterexample: the claimed round-trip fails for arbitrary prose.
The serialized object parses on its own, but when the surrounding prose
itself contains a brace pair, the first-`\x7b`-to-last-`\x7d` cut captures the
prose's stray opening brace, the substring is not JSON, and extraction
throws (modelled as `none`) even though parseable JSON is present. -/
theorem c8_counterexample_stray_brace_in_prose :
    jsonParse "\x7b\"value\":\"a\"\x7d" = some (Json.obj [("value", Json.str "a")]) ∧
    extractJSON "Here is \x7bthe gist\x7d: \x7b\"value\":\"a\"\x7d" = none :=
  ⟨rfl, rfl⟩

/-- C8 (amended): the extraction round-trip holds for prose that is
brace-free in the relevant direction — if `s` serializes an object (starts
with `\x7b` and ends with `\x7d`), `s` parses to `v`, the leading prose
contains no `\x7b`, and the trailing prose contains no `\x7d`, then
`extractJSON (pre ++ s ++ suf) = some v`.  Arbitrary prose is not
tolerated: see the counterexample. -/
theorem c8_extraction_roundtrip_amended
    (pre s suf : String) (v : Json) (mid : List Char)
    (hparse : jsonParse s = some v)
    (hshape : s.toList = '\x7b' :: (mid ++ ['\x7d']))
    (hpre : ∀ c ∈ pre.toList, c ≠ '\x7b')
    (hsuf : ∀ c ∈ suf.toList, c ≠ '\x7d') :
    extractJSON (pre ++ s ++ suf) = some v := by
  have htl : (pre ++ s ++ suf).toList =
      pre.toList ++ ('\x7b' :: (mid ++ '\x7d' :: suf.toList)) := by
    show (pre ++ s ++ suf).data = _
    rw [String.data_append, String.data_append]
    show pre.toList ++ s.toList ++ suf.toList = _
    rw [hshape]
    simp
  rw [extractJSON, htl, jsTrimL_decompose]
  rw [extractCandidate_between_braces _ _ _
        (fun a ha => hpre a (mem_dropWhile_imp jsWs pre.toList a ha))
        (fun a ha => hsuf a
          (List.mem_reverse.mp
            (mem_dropWhile_imp jsWs suf.toList.reverse a (List.mem_reverse.mp ha))))]
  rw [← hshape]
  exact hparse

/-- Witness for the amended C8 at a concrete prose-wrapped serialization. -/
theorem c8_extraction_roundtrip_amended_witness :
    extractJSON ("Sure, here you go: " ++ "\x7b\"value\":\"a\"\x7d" ++ " Enjoy!") =
      some (Json.obj [("value", Json.str "a")]) :=
  c8_extraction_roundtrip_amended "Sure, here you go: " "\x7b\"value\":\"a\"\x7d" " Enjoy!"
    (Json.obj [("value", Json.str "a")]) ("\"value\":\"a\"".toList) rfl rfl
    (by decide) (by decide)
